import Mathlib

/-!
Verification of the multi-agent orchestration engine of the
SG-D-T-Offerings-chatbot repository: a shallow embedding of the planner
(`app/agents/strategy.py`), the dependency executor and report generator
(`app/core/orchestrator.py`), the provider gateway and JSON extractor
(`app/core/base_agent.py`), the scoping refinement (`app/agents/scoping.py`)
and the baseline-estimates lookup (`app/core/baseline_estimates.py`,
`data/baseline_estimates.py`), together with theorems settling the spec's
claims about them.

Modelling conventions: Python dicts become association lists (later writes
shadow earlier entries), optional dict keys become `Option` fields, Python
floats become `ℚ` (the quantities involved are small decimal literals, so
exact arithmetic agrees with float arithmetic far within the claims'
tolerances), wall-clock fields (timestamps, execution_time) are omitted, and
calls to the external text-generation providers are abstracted as explicit
outcome parameters (`Except`/oracle functions).  Every function is total;
paths on which the Python raises are modelled with `Except`/`Option` results.
-/

namespace SGDT

/-! ## Python-style string primitives -/

/-- Lowercase mapping of `str.lower` (ASCII range, which is all the code's
keyword tables use). -/
def pyLower (s : String) : String := String.mk (s.data.map Char.toLower)

/-- Whether `pat` is a prefix of `hay` (character lists). -/
def isPrefOf : List Char → List Char → Bool
  | [], _ => true
  | _ :: _, [] => false
  | a :: as, b :: bs => a == b && isPrefOf as bs

/-- Index of the first occurrence of `pat` in `hay`, `str.find` style
(`none` plays the role of Python's `-1`). -/
def findSub : List Char → List Char → Option Nat
  | [], pat => if pat.isEmpty then some 0 else none
  | c :: t, pat =>
    if isPrefOf pat (c :: t) then some 0 else (findSub t pat).map (· + 1)

/-- Substring containment, Python's `pat in hay` on `str`. -/
def containsSub (hay pat : List Char) : Bool := (findSub hay pat).isSome

/-- Substring containment on `String`. -/
def strContains (hay pat : String) : Bool := containsSub hay.toList pat.toList

/-- Accumulator for `pyWords`: splits a character list at whitespace runs,
discarding empty pieces (the current word is carried reversed). -/
def pyWordsAux : List Char → List Char → List String
  | [], acc => if acc.isEmpty then [] else [String.mk acc.reverse]
  | c :: rest, acc =>
    if c.isWhitespace then
      if acc.isEmpty then pyWordsAux rest []
      else String.mk acc.reverse :: pyWordsAux rest []
    else pyWordsAux rest (c :: acc)

/-- Python `str.split()` with no argument: split on whitespace runs,
discarding empty pieces. -/
def pyWords (s : String) : List String := pyWordsAux s.data []

/-- Association-list lookup: Python `dict.get` (insertion with shadowing is
modelled by prepending, so `find?` sees the latest write first). -/
def alookup {α : Type} (m : List (String × α)) (k : String) : Option α :=
  (m.find? (fun p => p.1 == k)).map (fun p => p.2)

/-- Python truthiness of an optional string (`None` and `""` are falsy). -/
def pyTruthy : Option String → Bool
  | none => false
  | some s => !(s == "")

/-- Python `str(d)` for a dict of strings: `\x7b'k': 'v', ...\x7d`. -/
def pyDictStr (m : List (String × String)) : String :=
  if m.isEmpty then "\x7b\x7d"
  else
    "\x7b" ++
      String.intercalate ", "
        (m.map (fun p => "\x27" ++ p.1 ++ "\x27: \x27" ++ p.2 ++ "\x27")) ++
    "\x7d"

/-! ## Data model (`app/core/base_agent.py`) -/

/-- One turn of `conversation_history` (the Python dict also carries a
wall-clock timestamp and free-form metadata, both claim-irrelevant). -/
structure Message where
  role : String
  content : String
deriving DecidableEq, Repr

/-- A pain-point record as built by the strategy agent's extractor. -/
structure PainPoint where
  description : String
  category : String
  urgency : String
deriving DecidableEq, Repr

/-- One service entry of a stored RAG result (`relevant_services`). -/
structure ServiceRec where
  service_name : String := ""
  relevance_score : ℚ := 0
  description : String := ""
deriving DecidableEq, Repr

/-- One stored scoping result (`context.scoping_results` value). -/
structure ScopingData where
  refined_estimates : List (String × String) := []
  scope_rationale : String := ""
  confidence : ℚ := 0
deriving DecidableEq, Repr

/-- One stored RAG result (`context.rag_results` value). -/
structure RagData where
  relevant_services : List ServiceRec := []
deriving DecidableEq, Repr

/-- `ConversationContext` (the `last_updated` wall-clock field is omitted). -/
structure ConversationContext where
  session_id : String
  conversation_history : List Message := []
  client_context : List (String × String) := []
  business_context : List (String × String) := []
  pain_points : List PainPoint := []
  discovered_services : List (String × String) := []
  rag_results : List (String × RagData) := []
  scoping_results : List (String × ScopingData) := []
  current_phase : String := "discovery"
deriving DecidableEq, Repr

/-- `ConversationContext.add_message`. -/
def addMessage (ctx : ConversationContext) (role content : String) :
    ConversationContext :=
  { ctx with conversation_history :=
      ctx.conversation_history ++ [{ role := role, content := content }] }

/-! ## Provider gateway (`BaseAgent._generate_response` / `LLMState`) -/

/-- Which provider served a call. -/
inductive LLMRoute where
  | gemini
  | groq
deriving DecidableEq, Repr

/-- One `_generate_response` call: given whether the Gemini call would fail
(`geminiFails`) and the current `LLMState._use_groq` flag, returns the new
flag and the provider that serves the call.  A Gemini failure runs
`switch_to_groq` (flag set permanently) before calling Groq; nothing ever
clears the flag. -/
def generateStep (geminiFails : Bool) (useGroq : Bool) : Bool × LLMRoute :=
  if useGroq then (useGroq, LLMRoute.groq)
  else if geminiFails then (true, LLMRoute.groq)
  else (false, LLMRoute.gemini)

/-- The flag after a sequence of calls (each `Bool` says whether Gemini
would fail on that call). -/
def llmFlagAfter (s : Bool) : List Bool → Bool
  | [] => s
  | b :: rest => llmFlagAfter (generateStep b s).1 rest

/-- The providers that serve a sequence of calls. -/
def llmRoutes (s : Bool) : List Bool → List LLMRoute
  | [] => []
  | b :: rest => (generateStep b s).2 :: llmRoutes (generateStep b s).1 rest

/-! ## Summarizer payloads and response envelopes -/

/-- One recommended-service entry (as placed in response metadata). -/
structure SvcRec where
  service_name : String := ""
  description : String := ""
  refined_estimates : List (String × String) := []
  baseline_estimates : List (String × String) := []
  scope_assumptions : List String := []
  next_steps : List String := []
deriving DecidableEq, Repr

/-- One `service_estimates` entry of a summarizer payload. -/
structure SvcEstimate where
  service_name : String := ""
  refined_estimates : List (String × String) := []
  scope_assumptions : List String := []
  next_steps : List String := []
deriving DecidableEq, Repr

/-- A summarizer content payload (the keys `_generate_final_response`
reads; absent keys are `none`/`[]`). -/
structure AgentContent where
  consultant_message : Option String := none
  response_type : Option String := none
  recommended_services : List SvcRec := []
  service_estimates : List SvcEstimate := []
  conversation_guidance : Option String := none
  suggested_probes : List String := []
  business_focus : Option String := none
deriving DecidableEq, Repr

/-- The metadata dict of a response envelope; `none` means the key is
absent. -/
structure ResponseMetadata where
  strategy_decision : Option String := none
  agents_executed : Option (List String) := none
  confidence : ℚ := 0
  recommended_services : Option (List SvcRec) := none
  conversation_guidance : Option String := none
  suggested_probes : Option (List String) := none
  business_focus : Option String := none
  fallback_used : Option Bool := none
  all_agents_failed : Option Bool := none
  error_occurred : Option Bool := none
  error_message : Option (Option String) := none
  suggested_next_steps : Option (List String) := none
deriving DecidableEq, Repr

/-- The `\x7bcontent, type, metadata\x7d` envelope (`rtype` is the dict key
`type`). -/
structure ResponseEnvelope where
  content : String
  rtype : String
  metadata : ResponseMetadata
deriving DecidableEq, Repr

/-- `Orchestrator._create_error_response`. -/
def createErrorResponse (message : String) (error : Option String) :
    ResponseEnvelope :=
  { content := message
    rtype := "conversational"
    metadata :=
      { error_occurred := some true
        error_message := some error
        confidence := 3/10
        suggested_next_steps := some
          [ "Provide more details about the client\x27s industry"
          , "Describe specific business challenges they\x27re facing"
          , "Share what\x27s driving their need for change" ] } }

/-! ## Dependency executor (`Orchestrator._execute_agent_sequence`) -/

/-- One task configuration of a plan's `agents_sequence`.  Keys that may be
absent in the Python dict are `Option`; `depends_on` is read through
`.get("depends_on", [])` everywhere, so an absent key is identified with
`[]`. -/
structure AgentConfig where
  agent : Option String := none
  search_id : Option String := none
  scope_focus : Option String := none
  search_focus : Option String := none
  response_type : Option String := none
  question_focus : Option String := none
  baseline_source : Option String := none
  depends_on : List String := []
deriving DecidableEq, Repr

/-- One execution-result dict as appended by `_execute_agent_sequence`
(`execution_time` omitted). -/
structure ExecResult where
  success : Bool
  agent_name : String
  content : AgentContent := {}
  confidence : ℚ := 0
  error : Option String := none
deriving DecidableEq, Repr

/-- Lookup in the `executed_agents` dict. -/
def lookupExec (m : List (String × ExecResult)) (k : String) :
    Option ExecResult :=
  (m.find? (fun p => p.1 == k)).map (fun p => p.2)

/-- `Orchestrator._dependencies_satisfied`: every dependency id must be
present and recorded successful. -/
def dependenciesSatisfied (depends_on : List String)
    (executed_agents : List (String × ExecResult)) : Bool :=
  depends_on.all (fun d =>
    match lookupExec executed_agents d with
    | some r => r.success
    | none => false)

/-- How a successful result is indexed in `executed_agents`: first under
`search_id or scope_focus or agent_name` (Python `or`, so empty strings are
falsy), then — per the `Also track by generic agent name` block — under
`"scoping_agent"` for scoping tasks, but for RAG tasks only (again) under
the task's `search_id`. -/
def trackSuccess (cfg : AgentConfig) (r : ExecResult)
    (m : List (String × ExecResult)) : List (String × ExecResult) :=
  let agentName := cfg.agent.getD ""
  let agentId :=
    if pyTruthy cfg.search_id then cfg.search_id.getD ""
    else if pyTruthy cfg.scope_focus then cfg.scope_focus.getD ""
    else agentName
  let m1 := (agentId, r) :: m
  if agentName == "scoping_agent" then ("scoping_agent", r) :: m1
  else if agentName == "rag_agent" && cfg.search_id.isSome then
    (cfg.search_id.getD "", r) :: m1
  else m1

/-- `Orchestrator._execute_agent_sequence`.  `runAgent` abstracts
`_execute_single_agent`, which never raises (its internal `try/except`
converts any processor exception into a failed result dict).  A task whose
dependencies are unsatisfied is skipped (`continue`) and contributes no
result; a dispatched task contributes exactly one result; only successful
results are indexed for later dependency checks. -/
def executeAgentSequence (runAgent : AgentConfig → ExecResult) :
    List AgentConfig → List (String × ExecResult) → List ExecResult
  | [], _ => []
  | cfg :: rest, m =>
    if dependenciesSatisfied cfg.depends_on m then
      let r := runAgent cfg
      r :: executeAgentSequence runAgent rest
        (if r.success then trackSuccess cfg r m else m)
    else executeAgentSequence runAgent rest m

/-! ## Strategy planner (`app/agents/strategy.py`) -/

/-- A parsed strategy decision (the keys the code reads or writes; `none`
means the key is absent from the dict). -/
structure StrategyContent where
  decision : Option String := none
  consultant_hypothesis : Option String := none
  consultant_analysis : Option String := none
  follow_up_focus : Option String := none
  agents_sequence : Option (List AgentConfig) := none
deriving DecidableEq, Repr

/-- The allowed values of the `decision` field. -/
def allowedDecisions : List String :=
  ["execute_pipeline", "gather_more_context", "provide_estimates"]

/-- The keyword phrases signalling a specific business challenge
(`_analyze_context_completeness`). -/
def specificChallengeKeywords : List String :=
  [ "legacy system", "scalability issue", "performance problem", "outdated"
  , "slow", "inefficient", "data problem", "integration issue"
  , "security concern", "compliance", "cost reduction", "modernization"
  , "digital transformation", "automation", "process improvement", "tender"
  , "manual process", "physical", "online", "digital", "submission"
  , "paperwork", "in-person", "holding", "burden", "labor", "storing" ]

/-- The keyword phrases signalling business impact
(`_analyze_context_completeness`). -/
def businessImpactKeywords : List String :=
  [ "losing money", "revenue impact", "customer complaints"
  , "operational cost", "efficiency", "growth", "expansion", "competitive"
  , "market pressure", "urgent", "critical", "want to stop", "trying to"
  , "moving online", "more efficient", "mitigate", "address", "pain points"
  , "issues", "challenges", "problems", "inefficiencies" ]

/-- The lowercased join of all conversation message contents, as scanned by
`_analyze_context_completeness`. -/
def allConversationText (ctx : ConversationContext) : String :=
  pyLower (String.intercalate " " (ctx.conversation_history.map
    (fun m => m.content)))

/-- Whether a specific-challenge keyword occurs in the text. -/
def hasSpecificChallenges (t : String) : Bool :=
  specificChallengeKeywords.any (fun p => strContains t p)

/-- Whether a business-impact keyword occurs in the text. -/
def hasBusinessImpact (t : String) : Bool :=
  businessImpactKeywords.any (fun p => strContains t p)

/-- Whether the combined text exceeds 15 words
(`len(all_conversation_text.split()) > 15`). -/
def hasDetail (t : String) : Bool := decide (15 < (pyWords t).length)

/-- The three completeness categories (rendered in the code as the
`🟢 SUFFICIENT` / `🟡 PARTIAL` / `🔴 INSUFFICIENT` banner strings). -/
inductive ContextAssessment where
  | sufficient
  | partialContext
  | insufficient
deriving DecidableEq, Repr

/-- The final if/elif/else of `_analyze_context_completeness`, computing
the overall assessment of the conversation so far. -/
def analyzeContextCompleteness (ctx : ConversationContext) :
    ContextAssessment :=
  let t := allConversationText ctx
  if hasSpecificChallenges t && hasBusinessImpact t && hasDetail t then
    ContextAssessment.sufficient
  else if hasSpecificChallenges t && hasDetail t then
    ContextAssessment.partialContext
  else ContextAssessment.insufficient

/-- The repair applied to one task by `_validate_strategy_decision`: a
scoping task with no `baseline_source` key receives `"direct_lookup"` when
the decision is `provide_estimates`, otherwise the `search_id` (defaulting
to `"search_1"`) of `firstRag`, the first RAG task of the whole sequence;
every other task is left unchanged. -/
def repairScopingConfig (dec : String) (firstRag : Option AgentConfig)
    (cfg : AgentConfig) : AgentConfig :=
  if cfg.agent == some "scoping_agent" && cfg.baseline_source.isNone then
    if dec == "provide_estimates" then
      { cfg with baseline_source := some "direct_lookup" }
    else
      match firstRag with
      | some rc => { cfg with baseline_source := some (rc.search_id.getD "search_1") }
      | none => cfg
  else cfg

/-- `StrategyAgent._validate_strategy_decision`.  Raised `ValueError`s are
modelled as `.error`.  The pass that inserts an explicit `depends_on = []`
where the key is absent is the identity here, because `depends_on` is
already identified with `[]` when absent (every reader uses
`.get("depends_on", [])`). -/
def validateStrategyDecision (d : StrategyContent) :
    Except String StrategyContent :=
  match d.decision with
  | none => Except.error "Strategy decision missing \x27decision\x27 field"
  | some dec =>
    if !(allowedDecisions.contains dec) then
      Except.error ("Invalid decision type: " ++ dec)
    else
      match d.agents_sequence with
      | none => Except.error "Strategy decision missing \x27agents_sequence\x27"
      | some seqn =>
        match seqn.findIdx? (fun c => c.agent.isNone) with
        | some i => Except.error ("Agent " ++ toString i ++ " missing \x27agent\x27 field")
        | none =>
          let firstRag := seqn.find? (fun c => c.agent == some "rag_agent")
          let repaired := seqn.map (repairScopingConfig dec firstRag)
          Except.ok { d with agents_sequence := some repaired }

/-- The RAG task of the deterministic fallback plan. -/
def fallbackRagConfig : AgentConfig :=
  { agent := some "rag_agent"
    search_id := some "search_1"
    search_focus := some "general D&T services for business challenges"
    depends_on := [] }

/-- The compose task of the deterministic fallback plan. -/
def fallbackSummarizingConfig : AgentConfig :=
  { agent := some "summarizing_agent"
    response_type := some "service_recommendations"
    depends_on := ["rag_agent"] }

/-- The clarify task of the deterministic fallback plan. -/
def fallbackClarifyConfig : AgentConfig :=
  { agent := some "summarizing_agent"
    response_type := some "targeted_follow_up"
    question_focus := some "business challenges and pain points"
    depends_on := [] }

/-- `StrategyAgent._create_fallback_strategy`: the deterministic fallback
plan used when planning raised. -/
def createFallbackStrategy (ctx : ConversationContext) : StrategyContent :=
  let hasContext := !ctx.client_context.isEmpty || !ctx.business_context.isEmpty
  let hasPainPoints := !ctx.pain_points.isEmpty
  if hasContext && hasPainPoints then
    { decision := some "execute_pipeline"
      consultant_hypothesis :=
        some "Based on available context, attempting to provide service recommendations"
      agents_sequence := some [fallbackRagConfig, fallbackSummarizingConfig] }
  else
    { decision := some "gather_more_context"
      consultant_analysis := some "Insufficient context for service recommendations"
      follow_up_focus := some "business_context"
      agents_sequence := some [fallbackClarifyConfig] }

/-- `StrategyAgent._calculate_confidence`. -/
def calculateConfidence (decision : StrategyContent)
    (ctx : ConversationContext) : ℚ :=
  let base : ℚ := 7/10
  let base := base + (if !ctx.pain_points.isEmpty then 1/10 else 0)
  let base := base + (if !ctx.business_context.isEmpty then 1/10 else 0)
  let base := base + (if 2 < ctx.conversation_history.length then 1/10 else 0)
  let base := base + (if decision.decision == some "execute_pipeline" then 1/20 else 0)
  min base 1

/-- The strategy agent's response object (fields of `AgentResponse` as
returned by `StrategyAgent.process`; `execution_time` omitted). -/
structure StrategyResponse where
  success : Bool
  agent_name : String := "strategy_agent"
  content : StrategyContent
  confidence : ℚ
  error : Option String := none
deriving DecidableEq, Repr

/-- `StrategyAgent.process`.  `plannerOutcome` abstracts the prompt build,
provider call and JSON parse: `.ok` carries the parsed decision dict,
`.error` a raised exception's message.  A validation error is caught by the
same `except` block.  On any exception the agent returns `success := false`
with the deterministic fallback plan as content and confidence `0.3`. -/
def strategyProcess (plannerOutcome : Except String StrategyContent)
    (ctx : ConversationContext) : StrategyResponse :=
  match plannerOutcome with
  | Except.ok raw =>
    match validateStrategyDecision raw with
    | Except.ok validated =>
      { success := true
        content := validated
        confidence := calculateConfidence validated ctx }
    | Except.error e =>
      { success := false
        content := createFallbackStrategy ctx
        confidence := 3/10
        error := some ("Strategy analysis failed: " ++ e) }
  | Except.error e =>
    { success := false
      content := createFallbackStrategy ctx
      confidence := 3/10
      error := some ("Strategy analysis failed: " ++ e) }

/-! ## Final response and `process_message` (`app/core/orchestrator.py`) -/

/-- `Orchestrator._generate_final_response`. -/
def generateFinalResponse (strategyDecision : StrategyContent)
    (execution_results : List ExecResult) : ResponseEnvelope :=
  match execution_results.reverse.find?
      (fun r => r.agent_name == "summarizing_agent" && r.success) with
  | some summarizingResult =>
    let content := summarizingResult.content
    let recommendedServices :=
      if content.response_type == some "service_estimates" then
        content.service_estimates.map (fun e =>
          { service_name := e.service_name
            description := "Detailed service estimates"
            refined_estimates := e.refined_estimates
            baseline_estimates := e.refined_estimates
            scope_assumptions := e.scope_assumptions
            next_steps := e.next_steps })
      else content.recommended_services
    { content := content.consultant_message.getD
        "I\x27m here to help you with your client consultation."
      rtype := content.response_type.getD "conversational"
      metadata :=
        { strategy_decision := some (strategyDecision.decision.getD "unknown")
          agents_executed := some ((execution_results.filter
            (fun r => r.success)).map (fun r => r.agent_name))
          confidence := summarizingResult.confidence
          recommended_services := some recommendedServices
          conversation_guidance := some (content.conversation_guidance.getD "")
          suggested_probes := some content.suggested_probes
          business_focus := some (content.business_focus.getD "") } }
  | none =>
    let successfulResults := execution_results.filter (fun r => r.success)
    if !successfulResults.isEmpty then
      { content := "I\x27ve analyzed the available information. Let me gather a bit more context to provide you with the best service recommendations for your client."
        rtype := "conversational"
        metadata :=
          { strategy_decision := some (strategyDecision.decision.getD "unknown")
            agents_executed := some (successfulResults.map (fun r => r.agent_name))
            confidence := 3/5
            fallback_used := some true } }
    else
      { content := "I\x27d like to help you identify the right D&T services for your client. Could you tell me more about their business situation? For example, what industry they\x27re in and what challenges they\x27re facing?"
        rtype := "conversational"
        metadata :=
          { strategy_decision := some (strategyDecision.decision.getD "unknown")
            agents_executed := some []
            confidence := 2/5
            all_agents_failed := some true } }

/-- The two return shapes of `Orchestrator.process_message`: the early
return of `_create_error_response` when the strategy response is
unsuccessful (a bare `\x7bcontent, type, metadata\x7d` dict), and the normal
`\x7bsuccess, ai_response, agents_executed, strategy_decision\x7d` wrapper
(`execution_time` omitted). -/
inductive ProcessMessageOutcome where
  | bareEnvelope (envelope : ResponseEnvelope)
  | wrapped (success : Bool) (ai_response : ResponseEnvelope)
      (agents_executed : List String) (strategy_decision : String)
deriving DecidableEq, Repr

/-- `Orchestrator.process_message`.  `plannerOutcome` abstracts the
strategy agent's provider call and parse, `runAgent` abstracts
`_execute_single_agent`.  When the strategy response is unsuccessful the
orchestrator returns `_create_error_response(...)` directly and the
response's content (the fallback plan) is never executed. -/
def processMessage (plannerOutcome : Except String StrategyContent)
    (runAgent : AgentConfig → ExecResult) (ctx : ConversationContext)
    (user_message : String) : ProcessMessageOutcome :=
  let ctx1 := addMessage ctx "user" user_message
  let strategyResponse := strategyProcess plannerOutcome ctx1
  if !strategyResponse.success then
    ProcessMessageOutcome.bareEnvelope (createErrorResponse
      "I\x27m having trouble analyzing your request. Could you provide more details about your client\x27s situation?"
      strategyResponse.error)
  else
    let strategyDecision := strategyResponse.content
    let agentsSequence := strategyDecision.agents_sequence.getD []
    let executionResults := executeAgentSequence runAgent agentsSequence []
    let finalResponse := generateFinalResponse strategyDecision executionResults
    ProcessMessageOutcome.wrapped true finalResponse
      ((executionResults.filter (fun r => r.success)).map (fun r => r.agent_name))
      (strategyDecision.decision.getD "unknown")

/-! ## Baseline estimates (`data/baseline_estimates.py`,
`app/core/baseline_estimates.py`) -/

/-- One tier of a service's baseline estimates. -/
structure Tier where
  tier : String
  price_range : String
  team_size : String
  duration : String
  description : String
deriving DecidableEq, Repr

/-- The `BASELINE_ESTIMATES` lookup table, transcribed from
`data/baseline_estimates.py`. -/
def BASELINE_ESTIMATES : List (String × List Tier) :=
  [ ("Strategy & Design: Cloud",
      [ { tier := "Tier 1: Focused Strategy"
          price_range := "$75,000 - $200,000"
          team_size := "2-4 people", duration := "4-8 weeks"
          description := "A focused strategy for an SMB, single department, or limited scope." }
      , { tier := "Tier 2: Comprehensive Strategy"
          price_range := "$200,000 - $600,000"
          team_size := "5-12+ people", duration := "3-7 months"
          description := "A comprehensive strategy for mid-market clients, including detailed financial and security planning." }
      , { tier := "Tier 3: Enterprise Transformation Roadmap"
          price_range := "$600,000 - $2,500,000+"
          team_size := "5-12+ people", duration := "3-7 months"
          description := "A full transformation roadmap for a large, regulated enterprise with complex legacy systems." } ])
  , ("Strategy & Design: Digital",
      [ { tier := "Tier 1: Functional Optimization"
          price_range := "$150,000 - $400,000"
          team_size := "3-5 people", duration := "2-4 months"
          description := "A focused strategy for functional optimization, such as digital marketing or supply chain." }
      , { tier := "Tier 2: Comprehensive Experience Strategy"
          price_range := "$400,000 - $900,000"
          team_size := "6-15+ people", duration := "5-9 months"
          description := "An end-to-end customer or employee journey transformation strategy." }
      , { tier := "Tier 3: Enterprise Business Model Transformation"
          price_range := "$900,000 - $3,000,000+"
          team_size := "6-15+ people", duration := "5-9 months"
          description := "A full business model transformation, including launching new digital businesses." } ])
  , ("Strategy & Design: AI & Data",
      [ { tier := "Tier 1: Foundational Data Strategy"
          price_range := "$200,000 - $500,000"
          team_size := "3-6 people", duration := "3-5 months"
          description := "A foundational strategy covering data governance, BI, and a roadmap for a single department." }
      , { tier := "Tier 2: Predictive AI Strategy"
          price_range := "$500,000 - $1,200,000"
          team_size := "7-15+ people", duration := "6-12 months"
          description := "A strategy and business case for a core predictive model like customer churn or demand forecasting." }
      , { tier := "Tier 3: Enterprise AI Transformation Strategy"
          price_range := "$1,200,000 - $5,000,000+"
          team_size := "7-15+ people", duration := "6-12 months"
          description := "A multi-year roadmap for becoming an AI-driven enterprise, including generative AI and a full governance model." } ])
  , ("Strategy & Design: Cybersecurity",
      [ { tier := "Tier 1: Compliance Readiness"
          price_range := "$150,000 - $450,000"
          team_size := "3-5 people", duration := "2-4 months"
          description := "An NCA ECC gap analysis and roadmap for a medium-sized enterprise." }
      , { tier := "Tier 2: Comprehensive Security Program"
          price_range := "$450,000 - $1,000,000"
          team_size := "6-12+ people", duration := "5-9 months"
          description := "A full risk assessment, governance design, and 3-year roadmap for a large enterprise." }
      , { tier := "Tier 3: Critical Infrastructure Strategy"
          price_range := "$1,000,000 - $4,000,000+"
          team_size := "6-12+ people", duration := "5-9 months"
          description := "An advanced strategy for a high-risk entity, including threat modeling and red teaming." } ])
  , ("Strategy & Design: Enterprise Architecture",
      [ { tier := "Tier 1: Domain Architecture"
          price_range := "$250,000 - $600,000"
          team_size := "3-5 people", duration := "3-5 months"
          description := "An \x27as-is\x27 assessment and \x27to-be\x27 design for the application portfolio of a single division." }
      , { tier := "Tier 2: Comprehensive Business Unit EA"
          price_range := "$600,000 - $1,500,000"
          team_size := "6-10+ people", duration := "6-12 months"
          description := "A complete Business, Data, Application, and Technology blueprint for a single business unit." }
      , { tier := "Tier 3: Full Enterprise Transformation Blueprint"
          price_range := "$1,500,000 - $5,000,000+"
          team_size := "6-10+ people", duration := "6-12 months"
          description := "A multi-year enterprise architecture roadmap for a large, complex organization undergoing a major transformation." } ])
  , ("Strategy & Design: Operating Model Design",
      [ { tier := "Tier 1: Functional Redesign"
          price_range := "$300,000 - $700,000"
          team_size := "3-5 people", duration := "3-5 months"
          description := "Redesigning the operating model for a single function like IT or Finance." }
      , { tier := "Tier 2: Business Unit TOM"
          price_range := "$700,000 - $1,800,000"
          team_size := "6-12+ people", duration := "6-12 months"
          description := "Designing a new Target Operating Model (TOM) for a specific business unit or geography." }
      , { tier := "Tier 3: Enterprise Transformation Model"
          price_range := "$1,800,000 - $6,000,000+"
          team_size := "6-12+ people", duration := "6-12 months"
          description := "A complete redesign for a large enterprise driven by a merger, acquisition, or major strategic pivot." } ])
  , ("Execution: Enterprise Solutions",
      [ { tier := "Tier 1: Single-Module Cloud"
          price_range := "$400,000 - $1,000,000"
          team_size := "5-10 people", duration := "4-7 months"
          description := "Implementing a core HR or Finance cloud module for a mid-sized company." }
      , { tier := "Tier 2: Multi-Module Cloud"
          price_range := "$1,000,000 - $5,000,000"
          team_size := "15-50+ people", duration := "9-24+ months"
          description := "Implementing Finance and Supply Chain for a large enterprise." }
      , { tier := "Tier 3: Complex Transformation"
          price_range := "$5,000,000 - $20,000,000+"
          team_size := "15-50+ people", duration := "9-24+ months"
          description := "A multi-module implementation with heavy customization, complex integrations, and a global rollout." } ])
  , ("Execution: ERP",
      [ { tier := "Tier 1: Core Process Unification"
          price_range := "$800,000 - $2,500,000"
          team_size := "10-20 people", duration := "7-12 months"
          description := "Cloud ERP implementation for Finance & HR with minimal customization." }
      , { tier := "Tier 2: Multi-Function Integration"
          price_range := "$2,500,000 - $8,000,000"
          team_size := "30-100+ people", duration := "15-30+ months"
          description := "Integrating Finance, HR, and Supply Chain with moderate Business Process Re-engineering (BPR)." }
      , { tier := "Tier 3: Full Enterprise Transformation"
          price_range := "$8,000,000 - $30,000,000+"
          team_size := "30-100+ people", duration := "15-30+ months"
          description := "A global, single-instance ERP rollout with heavy BPR and complex data migration." } ])
  , ("Operation: Cybersecurity",
      [ { tier := "Tier 1: Endpoint MDR"
          price_range := "$15,000 - $40,000 per month"
          team_size := "Shared SOC Team", duration := "4-10 weeks to go-live"
          description := "Monitoring 250-1,000 laptops and servers with a standard SLA." }
      , { tier := "Tier 2: Expanded MDR"
          price_range := "$40,000 - $100,000 per month"
          team_size := "Shared SOC Team", duration := "4-10 weeks to go-live"
          description := "Includes endpoints plus cloud infrastructure and network monitoring for a mid-sized enterprise." }
      , { tier := "Tier 3: Comprehensive SOC-as-a-Service"
          price_range := "$100,000 - $300,000+ per month"
          team_size := "Shared SOC Team", duration := "4-10 weeks to go-live"
          description := "A fully outsourced security operations function with strict SLAs and proactive threat hunting." } ])
  , ("Operation: AMS (Application Management Services)",
      [ { tier := "Tier 1: Single Application Support"
          price_range := "$20,000 - $60,000 per month"
          team_size := "Shared Team", duration := "5-10 weeks to go-live"
          description := "Supporting a single, standard cloud application like Salesforce for a mid-sized company." }
      , { tier := "Tier 2: Application Portfolio Support"
          price_range := "$60,000 - $150,000 per month"
          team_size := "Shared Team", duration := "5-10 weeks to go-live"
          description := "Supporting a suite of 3-5 standard applications like an ERP and CRM." }
      , { tier := "Tier 3: Complex & Custom Application Management"
          price_range := "$150,000 - $400,000+ per month"
          team_size := "Shared Team", duration := "5-10 weeks to go-live"
          description := "Supporting a large, complex portfolio including legacy and custom-built applications with strict 24/7 SLAs." } ])
  , ("Operation: Advisory as a Service",
      [ { tier := "Tier 1: Senior Advisor Retainer"
          price_range := "$10,000 - $25,000 per month"
          team_size := "Single Advisor", duration := "6-18 month contract"
          description := "2-3 days per month of a senior consultant\x27s time for project-specific guidance." }
      , { tier := "Tier 2: Partner-Level Advisory"
          price_range := "$25,000 - $60,000 per month"
          team_size := "Single Advisor", duration := "6-18 month contract"
          description := "4-6 days per month of a partner\x27s time for strategic planning and executive coaching." }
      , { tier := "Tier 3: Expert Council / Fractional Executive"
          price_range := "$60,000 - $120,000+ per month"
          team_size := "Single Advisor (+ optional support)"
          duration := "6-18 month contract"
          description := "A significant time commitment from a top-tier expert to fill a key leadership gap or guide a major transformation." } ])
  , ("Execution: Bespoke Solutions",
      [ { tier := "Tier 1: Departmental Solution"
          price_range := "$250,000 - $750,000"
          team_size := "4-7 people", duration := "3-6 months"
          description := "An internal tool to automate a specific business process." }
      , { tier := "Tier 2: Core Business Application"
          price_range := "$750,000 - $2,500,000"
          team_size := "8-20+ people", duration := "8-18+ months"
          description := "A custom application to manage a core business function not served by off-the-shelf software." }
      , { tier := "Tier 3: Customer-Facing Digital Platform"
          price_range := "$2,500,000 - $10,000,000+"
          team_size := "8-20+ people", duration := "8-18+ months"
          description := "A large-scale, highly available, and secure platform that serves as a primary interface for customers." } ]) ]

/-- `BaselineEstimatesManager.get_baseline_estimates`. -/
def getBaselineEstimatesData (service_name : String) : Option (List Tier) :=
  alookup BASELINE_ESTIMATES service_name

/-- `BaselineEstimatesManager.search_services`: case-insensitive substring
match over service names. -/
def searchServicesData (query : String) : List String :=
  (BASELINE_ESTIMATES.map (fun p => p.1)).filter
    (fun n => strContains (pyLower n) (pyLower query))

/-! ## Scoping agent (`app/agents/scoping.py`) -/

/-- `client_size` multipliers from `ScopingAgent.__init__`. -/
def clientSizeMultipliers : List (String × ℚ) :=
  [("startup", 7/10), ("sme", 1), ("enterprise", 3/2), ("large_enterprise", 2)]

/-- `industry_complexity` multipliers from `ScopingAgent.__init__`. -/
def industryComplexityMultipliers : List (String × ℚ) :=
  [("low", 9/10), ("medium", 1), ("high", 13/10), ("regulated", 8/5)]

/-- `technical_maturity` multipliers from `ScopingAgent.__init__`. -/
def technicalMaturityMultipliers : List (String × ℚ) :=
  [("modern", 4/5), ("mixed", 1), ("legacy", 7/5), ("very_legacy", 9/5)]

/-- `urgency` multipliers from `ScopingAgent.__init__`. -/
def urgencyMultipliers : List (String × ℚ) :=
  [("standard", 1), ("urgent", 6/5), ("critical", 3/2)]

/-- The outer `complexity_multipliers` dict, keyed `client_size`,
`industry_complexity`, `technical_maturity`, `urgency`. -/
def complexityMultipliers : List (String × List (String × ℚ)) :=
  [ ("client_size", clientSizeMultipliers)
  , ("industry_complexity", industryComplexityMultipliers)
  , ("technical_maturity", technicalMaturityMultipliers)
  , ("urgency", urgencyMultipliers) ]

/-- The client-factor dict produced by `_analyze_client_factors`, whose
keys (in insertion order) are `size`, `industry`, `complexity`, `urgency`,
`technical_maturity`, `integration_needs`. -/
structure ClientFactors where
  size : String
  industry : String
  complexity : String
  urgency : String
  technical_maturity : String
  integration_needs : String
deriving DecidableEq, Repr

/-- The factor dict as a key/value list in Python insertion order. -/
def clientFactorsPairs (f : ClientFactors) : List (String × String) :=
  [ ("size", f.size), ("industry", f.industry), ("complexity", f.complexity)
  , ("urgency", f.urgency), ("technical_maturity", f.technical_maturity)
  , ("integration_needs", f.integration_needs) ]

/-- `ScopingAgent._analyze_client_factors`. -/
def analyzeClientFactors (ctx : ConversationContext) : ClientFactors :=
  let f : ClientFactors :=
    { size := "sme", industry := "standard", complexity := "medium"
      urgency := "standard", technical_maturity := "mixed"
      integration_needs := "moderate" }
  let f :=
    if !ctx.client_context.isEmpty then
      let f :=
        match alookup ctx.client_context "company_size" with
        | some csRaw =>
          let cs := pyLower csRaw
          if strContains cs "startup" || strContains cs "small" then
            { f with size := "startup" }
          else if strContains cs "sme" || strContains cs "medium" then
            { f with size := "sme" }
          else if strContains cs "large" then
            { f with size := "large_enterprise" }
          else if strContains cs "enterprise" then
            { f with size := "enterprise" }
          else f
        | none => f
      match alookup ctx.client_context "industry" with
      | some iRaw =>
        let ind := pyLower iRaw
        if strContains ind "financial" || strContains ind "banking" ||
            strContains ind "healthcare" || strContains ind "government" then
          { f with industry := "regulated", complexity := "high" }
        else f
      | none => f
    else f
  let f :=
    if !ctx.business_context.isEmpty then
      let bs := pyLower (pyDictStr ctx.business_context)
      let f :=
        if strContains bs "urgent" || strContains bs "asap" ||
            strContains bs "immediately" || strContains bs "critical" then
          { f with urgency := "urgent" }
        else f
      if strContains bs "legacy" || strContains bs "old system" ||
          strContains bs "mainframe" then
        { f with technical_maturity := "legacy" }
      else if strContains bs "modern" || strContains bs "cloud" ||
          strContains bs "microservices" then
        { f with technical_maturity := "modern" }
      else f
    else f
  if !ctx.pain_points.isEmpty then
    let painText := pyLower (String.intercalate " "
      (ctx.pain_points.map (fun pp => pp.description)))
    if strContains painText "integration" ||
        strContains painText "multiple systems" ||
        strContains painText "complex" then
      { f with integration_needs := "high", complexity := "high" }
    else f
  else f

/-- The multiplier loop of `_mathematical_refinement`: fold over the
client-factor dict; factor types absent from `complexity_multipliers`
contribute nothing, known factor types contribute their value's multiplier
(default `1.0` for an unknown value). -/
def totalComplexityMultiplier (factors : List (String × String)) : ℚ :=
  factors.foldl
    (fun acc p =>
      match alookup complexityMultipliers p.1 with
      | some table => acc * ((alookup table p.2).getD 1)
      | none => acc)
    1

/-- The consolidated baseline-estimate dict built by
`ScopingAgent._get_baseline_estimates` (absent keys are `none`). -/
structure BaselineEstimate where
  pricing_range : Option String := none
  team_size : Option String := none
  duration : Option String := none
  description : Option String := none
  tier : Option String := none
  all_tiers : List Tier := []
  matched_service : Option String := none
  complexity_factors : List String := []
deriving DecidableEq, Repr

/-- The hard-coded `complexity_factors` list. -/
def standardComplexityFactors : List String :=
  [ "Client size", "Technical complexity", "Integration requirements"
  , "Timeline constraints" ]

/-- The tier chosen as baseline: index 1 (`Tier 2`) when the list has at
least two tiers, else index 0 (the only tier). -/
def chooseBaselineTier (tiers : List Tier) : Option Tier :=
  if 2 ≤ tiers.length then tiers[1]? else tiers[0]?

/-- Consolidation of a chosen tier into the baseline dict. -/
def consolidateBaseline (t : Tier) (tiers : List Tier)
    (matched : Option String) : BaselineEstimate :=
  { pricing_range := some t.price_range
    team_size := some t.team_size
    duration := some t.duration
    description := some t.description
    tier := some t.tier
    all_tiers := tiers
    matched_service := matched
    complexity_factors := standardComplexityFactors }

/-- The generic fallback baseline when no lookup succeeds. -/
def genericFallbackBaseline : BaselineEstimate :=
  { pricing_range := some "$100K - $500K (varies by complexity)"
    team_size := some "3-6 consultants"
    duration := some "4-8 months"
    complexity_factors := standardComplexityFactors }

/-- `ScopingAgent._get_baseline_estimates`: direct lookup, else fuzzy
search (first match), else the generic fallback.  The Python guards each
tier list with a truthiness check, so an empty tier list falls through. -/
def scopingGetBaselineEstimates (service_name : String) : BaselineEstimate :=
  match getBaselineEstimatesData service_name with
  | some (t0 :: rest) =>
    consolidateBaseline ((chooseBaselineTier (t0 :: rest)).getD t0)
      (t0 :: rest) none
  | some [] | none =>
    match searchServicesData service_name with
    | matched :: _ =>
      match getBaselineEstimatesData matched with
      | some (t0 :: rest) =>
        consolidateBaseline ((chooseBaselineTier (t0 :: rest)).getD t0)
          (t0 :: rest) (some matched)
      | some [] | none => genericFallbackBaseline
    | [] => genericFallbackBaseline

/-- Format a positive rational with one decimal place, Python's
`"\x7b:.1f\x7d".format` on the small multiplier values in use (ties, where
float banker\x27s rounding could differ, do not occur for the table's
products). -/
def formatMult1 (q : ℚ) : String :=
  let m := (round (q * 10)).toNat
  toString (m / 10) ++ "." ++ toString (m % 10)

/-- `ScopingAgent._adjust_pricing_range`. -/
def adjustPricingRange (baselineRange : String) (multiplier : ℚ) : String :=
  if strContains (pyLower baselineRange) "to be determined" then
    "Estimated " ++ formatMult1 multiplier ++
      "x standard rates - to be refined in discovery"
  else
    baselineRange ++ " (adjusted for complexity: " ++ formatMult1 multiplier ++ "x)"

/-- `ScopingAgent._adjust_team_size`. -/
def adjustTeamSize (baselineTeam : String) (multiplier : ℚ) : String :=
  if 13/10 < multiplier then
    baselineTeam ++ " + additional specialists for complexity"
  else if multiplier < 4/5 then "Streamlined team: " ++ baselineTeam
  else baselineTeam

/-- `ScopingAgent._adjust_duration`. -/
def adjustDuration (baselineDuration : String) (multiplier : ℚ) : String :=
  if 13/10 < multiplier then baselineDuration ++ " + buffer for complexity"
  else if multiplier < 4/5 then
    "Accelerated timeline: " ++ baselineDuration
  else baselineDuration

/-- The refined-estimates dict produced by `_mathematical_refinement`. -/
structure RefinedEstimates where
  pricing_range : String
  team_composition : String
  duration : String
  key_assumptions : List String
deriving DecidableEq, Repr

/-- The result dict of `_mathematical_refinement`. -/
structure RefinementResult where
  estimates : RefinedEstimates
  rationale : String
  risks : List String
  confidence : ℚ
deriving DecidableEq, Repr

/-- `ScopingAgent._mathematical_refinement`: the fallback applied when the
provider's refinement reply cannot be parsed. -/
def mathematicalRefinement (baseline : BaselineEstimate)
    (clientFactors : ClientFactors) : RefinementResult :=
  let totalMultiplier := totalComplexityMultiplier
    (clientFactorsPairs clientFactors)
  { estimates :=
      { pricing_range :=
          adjustPricingRange (baseline.pricing_range.getD "") totalMultiplier
        team_composition :=
          adjustTeamSize (baseline.team_size.getD "") totalMultiplier
        duration :=
          adjustDuration (baseline.duration.getD "") totalMultiplier
        key_assumptions :=
          [ "Complexity multiplier: " ++ formatMult1 totalMultiplier ++ "x"
          , "Standard delivery approach"
          , "Client resources available" ] }
    rationale := "Mathematical refinement applied with " ++
      formatMult1 totalMultiplier ++ "x complexity factor"
    risks :=
      [ "Estimate based on limited context"
      , "May require adjustment after discovery" ]
    confidence := 3/5 }

/-! ## Analysis report (`Orchestrator.generate_analysis_report`) -/

/-- The `conversation_summary` section. -/
structure ConversationSummary where
  total_messages : Nat
  conversation_phase : String
  duration : String
  key_topics_discussed : List String
deriving DecidableEq, Repr

/-- The `client_analysis` section. -/
structure ClientAnalysis where
  client_context : List (String × String)
  business_context : List (String × String)
  pain_points : List PainPoint
  analysis_confidence : String
deriving DecidableEq, Repr

/-- One `service_recommendations` entry. -/
structure ServiceSummaryItem where
  service_name : String
  relevance_score : ℚ
  description : String
  source : String
deriving DecidableEq, Repr

/-- One `scoping_analysis` entry. -/
structure ScopingSummaryItem where
  service_name : String
  refined_estimates : List (String × String)
  scope_rationale : String
  confidence : ℚ
deriving DecidableEq, Repr

/-- The report envelope returned by `generate_analysis_report`; `none`
marks a key absent from the returned dict (`generated_at`, a wall-clock
value, is omitted). -/
structure AnalysisReport where
  success : Bool
  error : Option String := none
  session_id : Option String := none
  conversation_summary : Option ConversationSummary := none
  client_analysis : Option ClientAnalysis := none
  service_recommendations : Option (List ServiceSummaryItem) := none
  scoping_analysis : Option (List ScopingSummaryItem) := none
  next_steps : Option (List String) := none
deriving DecidableEq, Repr

/-- `Orchestrator._create_conversation_summary`. -/
def createConversationSummary (ctx : ConversationContext) :
    ConversationSummary :=
  { total_messages := ctx.conversation_history.length
    conversation_phase := ctx.current_phase
    duration := "Active session"
    key_topics_discussed := ctx.discovered_services.map (fun p => p.1) }

/-- `Orchestrator._create_client_analysis`. -/
def createClientAnalysis (ctx : ConversationContext) : ClientAnalysis :=
  { client_context := ctx.client_context
    business_context := ctx.business_context
    pain_points := ctx.pain_points
    analysis_confidence :=
      if !ctx.client_context.isEmpty && !ctx.pain_points.isEmpty then "High"
      else "Medium" }

/-- `Orchestrator._create_service_summary`. -/
def createServiceSummary (ctx : ConversationContext) :
    List ServiceSummaryItem :=
  ctx.rag_results.flatMap (fun p =>
    p.2.relevant_services.map (fun s =>
      { service_name := s.service_name
        relevance_score := s.relevance_score
        description := s.description
        source := "RAG Search " ++ p.1 }))

/-- `Orchestrator._create_scoping_summary`. -/
def createScopingSummary (ctx : ConversationContext) :
    List ScopingSummaryItem :=
  ctx.scoping_results.map (fun p =>
    { service_name := p.1
      refined_estimates := p.2.refined_estimates
      scope_rationale := p.2.scope_rationale
      confidence := p.2.confidence })

/-- `Orchestrator._create_next_steps`. -/
def createNextSteps (ctx : ConversationContext) : List String :=
  let ns :=
    (if !ctx.scoping_results.isEmpty then
      [ "Schedule discovery workshops for recommended services"
      , "Prepare detailed proposals based on scoped estimates" ]
    else []) ++
    (if !ctx.rag_results.isEmpty then
      [ "Present service recommendations to client"
      , "Gather additional requirements for detailed scoping" ]
    else [])
  if ns.isEmpty then
    [ "Continue gathering client context and requirements"
    , "Identify specific business challenges and pain points"
    , "Determine client priorities and timeline" ]
  else ns

/-- `Orchestrator.generate_analysis_report`.  Total: the no-history guard
returns the failure envelope before anything else runs, and the body's
`try/except` converts any exception into a failure envelope (no modelled
path raises). -/
def generateAnalysisReport (ctx : ConversationContext) : AnalysisReport :=
  if ctx.conversation_history.isEmpty then
    { success := false
      error := some "No conversation history available for analysis" }
  else
    { success := true
      session_id := some ctx.session_id
      conversation_summary := some (createConversationSummary ctx)
      client_analysis := some (createClientAnalysis ctx)
      service_recommendations := some (createServiceSummary ctx)
      scoping_analysis := some (createScopingSummary ctx)
      next_steps := some (createNextSteps ctx) }

/-! ## JSON values and the response extractor
(`BaseAgent._parse_json_response`)

The extractor receives free-form provider text and recovers one JSON
object: fenced-block extraction, template-leak recovery and a structural
parse.  The structural parse is Python's `json.loads`/`json.dumps`
(stdlib): `JVal` is the JSON value type (numbers restricted to integers —
the planner's schemas use none others, and floats are outside the
embedding), `dumpVal` is the compact serialization (`json.dumps` with its
optional whitespace omitted and `ensure_ascii=False`; both are accepted
serializations), and `parseVal`/`jsonLoads` is a fuel-indexed recursive
descent of the JSON grammar as accepted by `json.loads` (whitespace
between tokens, string escapes including `\uXXXX`). -/

mutual
inductive JVal where
  | jnull : JVal
  | jbool : Bool → JVal
  | jnum : Int → JVal
  | jstr : List Char → JVal
  | jarr : JArr → JVal
  | jobj : JObj → JVal
deriving DecidableEq, Repr
inductive JArr where
  | anil : JArr
  | acons : JVal → JArr → JArr
deriving DecidableEq, Repr
inductive JObj where
  | onil : JObj
  | ocons : List Char → JVal → JObj → JObj
deriving DecidableEq, Repr
end

/-- The decimal digit character for `n < 10`. -/
def digitChar : Nat → Char
  | 0 => '0' | 1 => '1' | 2 => '2' | 3 => '3' | 4 => '4'
  | 5 => '5' | 6 => '6' | 7 => '7' | 8 => '8' | _ => '9'

/-- The lowercase hexadecimal digit character for `n < 16`. -/
def hexDigitChar : Nat → Char
  | 0 => '0' | 1 => '1' | 2 => '2' | 3 => '3' | 4 => '4'
  | 5 => '5' | 6 => '6' | 7 => '7' | 8 => '8' | 9 => '9'
  | 10 => 'a' | 11 => 'b' | 12 => 'c' | 13 => 'd' | 14 => 'e' | _ => 'f'

/-- Decimal rendering of a natural number, with fuel for structural
recursion (`dumpNat` supplies sufficient fuel). -/
def dumpNatAux : Nat → Nat → List Char
  | 0, _ => []
  | fuel+1, n =>
    if n < 10 then [digitChar n]
    else dumpNatAux fuel (n / 10) ++ [digitChar (n % 10)]

/-- Decimal rendering of a natural number. -/
def dumpNat (n : Nat) : List Char := dumpNatAux (n + 1) n

/-- Decimal rendering of an integer (`json.dumps` of an `int`). -/
def dumpInt : Int → List Char
  | Int.ofNat n => dumpNat n
  | Int.negSucc n => '-' :: dumpNat (n + 1)

/-- `json.dumps` escaping of one string character (`ensure_ascii=False`):
quote, backslash and the short control escapes, `\u00XX` for the remaining
control characters, everything else literal. -/
def escapeChar (c : Char) : List Char :=
  if c = '"' then ['\\', '"']
  else if c = '\\' then ['\\', '\\']
  else if c = '\n' then ['\\', 'n']
  else if c = '\t' then ['\\', 't']
  else if c = '\r' then ['\\', 'r']
  else if c = '\x08' then ['\\', 'b']
  else if c = '\x0c' then ['\\', 'f']
  else if c.toNat < 32 then
    ['\\', 'u', '0', '0', hexDigitChar (c.toNat / 16), hexDigitChar (c.toNat % 16)]
  else [c]

/-- `json.dumps` escaping of a string body. -/
def escapeStr : List Char → List Char
  | [] => []
  | c :: rest => escapeChar c ++ escapeStr rest

mutual
/-- Compact serialization of a JSON value. -/
def dumpVal : JVal → List Char
  | JVal.jnull => ['n', 'u', 'l', 'l']
  | JVal.jbool true => ['t', 'r', 'u', 'e']
  | JVal.jbool false => ['f', 'a', 'l', 's', 'e']
  | JVal.jnum n => dumpInt n
  | JVal.jstr s => '"' :: (escapeStr s ++ ['"'])
  | JVal.jarr a => '[' :: (dumpArrItems a ++ [']'])
  | JVal.jobj o => '\x7b' :: (dumpObjItems o ++ ['\x7d'])
/-- Comma-separated serialization of array elements. -/
def dumpArrItems : JArr → List Char
  | JArr.anil => []
  | JArr.acons v JArr.anil => dumpVal v
  | JArr.acons v (JArr.acons w t) =>
    dumpVal v ++ (',' :: dumpArrItems (JArr.acons w t))
/-- Comma-separated serialization of object members. -/
def dumpObjItems : JObj → List Char
  | JObj.onil => []
  | JObj.ocons k v JObj.onil =>
    '"' :: (escapeStr k ++ ('"' :: ':' :: dumpVal v))
  | JObj.ocons k v (JObj.ocons k2 v2 t) =>
    ('"' :: (escapeStr k ++ ('"' :: ':' :: dumpVal v))) ++
      (',' :: dumpObjItems (JObj.ocons k2 v2 t))
end

/-- JSON inter-token whitespace (the characters `json.loads` skips: space,
newline, tab, carriage return). -/
def jsonWs (c : Char) : Bool :=
  c.toNat = 32 || c.toNat = 10 || c.toNat = 9 || c.toNat = 13

/-- Python `str.strip()` whitespace (additionally `\v` and `\f`). -/
def pyWs (c : Char) : Bool :=
  c.toNat = 32 || c.toNat = 9 || c.toNat = 10 || c.toNat = 13 ||
    c.toNat = 11 || c.toNat = 12

/-- ASCII decimal digit test (`Char.isDigit`, phrased on code points). -/
def isDigitChar (c : Char) : Bool := 48 ≤ c.toNat && c.toNat ≤ 57

/-- Skip leading JSON whitespace. -/
def skipWs : List Char → List Char
  | [] => []
  | c :: rest => if jsonWs c then skipWs rest else c :: rest

/-- The character denoted by a short escape sequence. -/
def unescapeChar (e : Char) : Option Char :=
  if e = '"' then some '"'
  else if e = '\\' then some '\\'
  else if e = '/' then some '/'
  else if e = 'n' then some '\n'
  else if e = 't' then some '\t'
  else if e = 'r' then some '\r'
  else if e = 'b' then some '\x08'
  else if e = 'f' then some '\x0c'
  else none

/-- The value of a hexadecimal digit character. -/
def hexVal (c : Char) : Option Nat :=
  if '0' ≤ c && c ≤ '9' then some (c.toNat - 48)
  else if 'a' ≤ c && c ≤ 'f' then some (c.toNat - 87)
  else if 'A' ≤ c && c ≤ 'F' then some (c.toNat - 55)
  else none

/-- Parse a JSON string body (after the opening quote) up to and including
the closing quote, decoding escapes; unescaped control characters are
rejected as in `json.loads` strict mode. -/
def parseStringBody : List Char → Option (List Char × List Char)
  | [] => none
  | c :: rest =>
    if c = '"' then some ([], rest)
    else if c = '\\' then
      match rest with
      | [] => none
      | e :: rest2 =>
        if e = 'u' then
          match rest2 with
          | h1 :: h2 :: h3 :: h4 :: rest3 =>
            match hexVal h1, hexVal h2, hexVal h3, hexVal h4 with
            | some v1, some v2, some v3, some v4 =>
              (parseStringBody rest3).map (fun p =>
                (Char.ofNat (((v1 * 16 + v2) * 16 + v3) * 16 + v4) :: p.1, p.2))
            | _, _, _, _ => none
          | _ => none
        else
          match unescapeChar e with
          | some u => (parseStringBody rest2).map (fun p => (u :: p.1, p.2))
          | none => none
    else if c.toNat < 32 then none
    else (parseStringBody rest).map (fun p => (c :: p.1, p.2))

/-- Longest digit prefix and the remainder. -/
def spanDigits : List Char → List Char × List Char
  | [] => ([], [])
  | c :: rest =>
    if isDigitChar c then
      let p := spanDigits rest
      (c :: p.1, p.2)
    else ([], c :: rest)

/-- Value of a digit string. -/
def digitsVal (l : List Char) : Nat :=
  l.foldl (fun a c => a * 10 + (c.toNat - 48)) 0

/-- Whether the list starts with the given character. -/
def headIs (l : List Char) (c : Char) : Bool :=
  match l with
  | x :: _ => x == c
  | [] => false

/-- Whether the list does not start with a digit. -/
def noDigitHead : List Char → Bool
  | [] => true
  | c :: _ => !isDigitChar c

mutual
/-- Parse one JSON value (fuel-indexed recursive descent of the grammar
`json.loads` accepts; on the inputs arising below the fuel is ample). -/
def parseVal : Nat → List Char → Option (JVal × List Char)
  | 0, _ => none
  | fuel+1, s =>
    match skipWs s with
    | [] => none
    | c :: r =>
      if c = 'n' then
        match r with
        | 'u' :: 'l' :: 'l' :: r2 => some (JVal.jnull, r2)
        | _ => none
      else if c = 't' then
        match r with
        | 'r' :: 'u' :: 'e' :: r2 => some (JVal.jbool true, r2)
        | _ => none
      else if c = 'f' then
        match r with
        | 'a' :: 'l' :: 's' :: 'e' :: r2 => some (JVal.jbool false, r2)
        | _ => none
      else if c = '"' then
        (parseStringBody r).map (fun p => (JVal.jstr p.1, p.2))
      else if c = '-' then
        match spanDigits r with
        | ([], _) => none
        | (d :: ds, r2) => some (JVal.jnum (-(digitsVal (d :: ds) : Int)), r2)
      else if c = '[' then
        if headIs (skipWs r) ']' then some (JVal.jarr JArr.anil, (skipWs r).tail)
        else (parseArrItems fuel r).map (fun p => (JVal.jarr p.1, p.2))
      else if c = '\x7b' then
        if headIs (skipWs r) '\x7d' then some (JVal.jobj JObj.onil, (skipWs r).tail)
        else (parseObjItems fuel r).map (fun p => (JVal.jobj p.1, p.2))
      else if isDigitChar c then
        match spanDigits (c :: r) with
        | (ds, r2) => some (JVal.jnum (digitsVal ds : Int), r2)
      else none
/-- Parse the members of a non-empty JSON array after its `[`. -/
def parseArrItems : Nat → List Char → Option (JArr × List Char)
  | 0, _ => none
  | fuel+1, s =>
    match parseVal fuel s with
    | none => none
    | some (v, r) =>
      match skipWs r with
      | [] => none
      | c :: r2 =>
        if c = ',' then
          match parseArrItems fuel r2 with
          | some (tl, r3) => some (JArr.acons v tl, r3)
          | none => none
        else if c = ']' then some (JArr.acons v JArr.anil, r2)
        else none
/-- Parse the members of a non-empty JSON object after its brace. -/
def parseObjItems : Nat → List Char → Option (JObj × List Char)
  | 0, _ => none
  | fuel+1, s =>
    match skipWs s with
    | [] => none
    | c :: r =>
      if c = '"' then
        match parseStringBody r with
        | none => none
        | some (k, r2) =>
          match skipWs r2 with
          | [] => none
          | c2 :: r3 =>
            if c2 = ':' then
              match parseVal fuel r3 with
              | none => none
              | some (v, r4) =>
                match skipWs r4 with
                | [] => none
                | c3 :: r5 =>
                  if c3 = ',' then
                    match parseObjItems fuel r5 with
                    | some (tl, r6) => some (JObj.ocons k v tl, r6)
                    | none => none
                  else if c3 = '\x7d' then some (JObj.ocons k v JObj.onil, r5)
                  else none
            else none
      else none
end

/-- `json.loads`: parse one value and require only whitespace after it. -/
def jsonLoads (s : List Char) : Option JVal :=
  match parseVal (s.length + 1) s with
  | some (v, r) => if (skipWs r).isEmpty then some v else none
  | none => none

mutual
/-- Fuel required by `parseVal` for a value (one unit per bracket level). -/
def sval : JVal → Nat
  | JVal.jarr a => 1 + sarr a
  | JVal.jobj o => 1 + sobj o
  | _ => 1
/-- Fuel required by `parseArrItems`. -/
def sarr : JArr → Nat
  | JArr.anil => 1
  | JArr.acons v t => 1 + max (sval v) (sarr t)
/-- Fuel required by `parseObjItems`. -/
def sobj : JObj → Nat
  | JObj.onil => 1
  | JObj.ocons _ v t => 1 + max (sval v) (sobj t)
end

/-! ### The extractor pipeline of `_parse_json_response` -/

/-- `str.strip()`. -/
def pyStrip (l : List Char) : List Char :=
  ((l.dropWhile pyWs).reverse.dropWhile pyWs).reverse

/-- `text[a:b]`. -/
def sliceList (l : List Char) (a b : Nat) : List Char := (l.take b).drop a

/-- Index of the last occurrence of a character (`str.rfind`). -/
def rfindCharAux : List Char → Char → Nat → Option Nat → Option Nat
  | [], _, _, acc => acc
  | x :: rest, c, i, acc =>
    rfindCharAux rest c (i + 1) (if x = c then some i else acc)

/-- Index of the last occurrence of a character (`str.rfind`). -/
def rfindChar (l : List Char) (c : Char) : Option Nat :=
  rfindCharAux l c 0 none

/-- The brace-matching scan of `_parse_json_response`: starting from the
last `\x7b` (index `i`), track the brace depth and report the index one
past the brace that closes it; `none` when it never closes. -/
def braceScanAux : List Char → Nat → Int → Option Nat
  | [], _, _ => none
  | c :: rest, i, count =>
    if c = '\x7b' then braceScanAux rest (i + 1) (count + 1)
    else if c = '\x7d' then
      if count - 1 = 0 then some (i + 1)
      else braceScanAux rest (i + 1) (count - 1)
    else braceScanAux rest (i + 1) count

/-- The `\x60\x60\x60` fence token. -/
def fence3 : List Char := ['`', '`', '`']

/-- The `\x60\x60\x60json` fence token. -/
def fenceJson : List Char := ['`', '`', '`', 'j', 's', 'o', 'n']

/-- The first template-leak marker. -/
def marker1 : List Char := "### Response Format:".toList

/-- The second template-leak marker. -/
def marker2 : List Char := "Always respond with valid JSON".toList

/-- `BaseAgent._parse_json_response` over character lists: strip; take the
interior of a ` ```json ` fence (else of any ` ``` ` fence) when present
and the closing fence exists; if a template-leak marker survives, take the
last brace-balanced object found by scanning from the final `\x7b`; then
`json.loads`.  `none` models the raised `ValueError`. -/
def parseJsonResponseChars (raw : List Char) : Option JVal :=
  let t0 := pyStrip raw
  let t1 :=
    if containsSub t0 fenceJson then
      match findSub t0 fenceJson with
      | some idx =>
        match findSub (t0.drop (idx + 7)) fence3 with
        | some e => pyStrip (sliceList t0 (idx + 7) (idx + 7 + e))
        | none => t0
      | none => t0
    else if containsSub t0 fence3 then
      match findSub t0 fence3 with
      | some idx =>
        match findSub (t0.drop (idx + 3)) fence3 with
        | some e => pyStrip (sliceList t0 (idx + 3) (idx + 3 + e))
        | none => t0
      | none => t0
    else t0
  let t2 :=
    if containsSub t1 marker1 || containsSub t1 marker2 then
      match rfindChar t1 '\x7b' with
      | some js =>
        match braceScanAux (t1.drop js) js 0 with
        | some je => sliceList t1 js je
        | none => sliceList t1 js js
      | none => t1
    else t1
  jsonLoads t2

/-- `BaseAgent._parse_json_response` on a `String`. -/
def parseJsonResponse (raw : String) : Option JVal :=
  parseJsonResponseChars raw.data

/-! ## Concrete instances used by the theorems below -/

/-- An oracle under which every dispatched task succeeds. -/
def okOracle : AgentConfig → ExecResult := fun cfg =>
  { success := true, agent_name := cfg.agent.getD "" }

/-- A context already holding client facts, business facts and a pain
point. -/
def ctxFactsAndPain : ConversationContext :=
  { session_id := "a"
    client_context := [("industry", "Banking/Financial Services")]
    business_context := [("technology_maturity", "Legacy systems")]
    pain_points := [{ description := "Legacy application modernization needed"
                      category := "technology", urgency := "medium" }] }

/-- A fresh context with no facts and no pain points. -/
def ctxEmpty : ConversationContext := { session_id := "b" }

/-- A context whose analysis yields size=enterprise, industry=regulated,
technical maturity=legacy, urgency=urgent. -/
def ctxRegulatedUrgentLegacy : ConversationContext :=
  { session_id := "c"
    client_context := [("company_size", "Enterprise"), ("industry", "Banking")]
    business_context := [("situation", "urgent legacy migration")] }

/-- A scoping task with no `baseline_source` key. -/
def scopeTaskNoBaseline : AgentConfig :=
  { agent := some "scoping_agent", scope_focus := some "Execution: ERP" }

/-- A RAG task with search id `s9`. -/
def ragTaskS9 : AgentConfig :=
  { agent := some "rag_agent", search_id := some "s9" }

/-- A plan whose scoping task precedes its only RAG task. -/
def planScopeThenRag : StrategyContent :=
  { decision := some "execute_pipeline"
    agents_sequence := some [scopeTaskNoBaseline, ragTaskS9] }

/-- A `provide_estimates` plan with a single scoping task. -/
def planScopeOnlyEstimates : StrategyContent :=
  { decision := some "provide_estimates"
    agents_sequence := some [scopeTaskNoBaseline] }

/-! ## Helper lemmas -/

theorem generateStep_fst (b s : Bool) : (generateStep b s).1 = (s || b) := by
  cases b <;> cases s <;> rfl

theorem generateStep_snd_of_true (s : Bool) :
    (generateStep true s).2 = LLMRoute.groq := by
  cases s <;> rfl

theorem llmFlagAfter_of_true (l : List Bool) : llmFlagAfter true l = true := by
  induction l with
  | nil => rfl
  | cons b rest ih =>
    show llmFlagAfter (generateStep b true).1 rest = true
    cases b <;> exact ih

theorem llmRoutes_of_true (l : List Bool) :
    llmRoutes true l = l.map (fun _ => LLMRoute.groq) := by
  induction l with
  | nil => rfl
  | cons b rest ih =>
    have hstep : llmRoutes true (b :: rest) =
        LLMRoute.groq :: llmRoutes true rest := by
      cases b <;> rfl
    rw [hstep, ih]
    rfl

theorem llmFlagAfter_append (l1 l2 : List Bool) (s : Bool) :
    llmFlagAfter s (l1 ++ l2) = llmFlagAfter (llmFlagAfter s l1) l2 := by
  induction l1 generalizing s with
  | nil => rfl
  | cons b rest ih => exact ih (generateStep b s).1

theorem llmRoutes_append (l1 l2 : List Bool) (s : Bool) :
    llmRoutes s (l1 ++ l2) =
      llmRoutes s l1 ++ llmRoutes (llmFlagAfter s l1) l2 := by
  induction l1 generalizing s with
  | nil => rfl
  | cons b rest ih =>
    show (generateStep b s).2 :: llmRoutes (generateStep b s).1 (rest ++ l2) = _
    rw [ih (generateStep b s).1]
    rfl

theorem llmRoutes_length (l : List Bool) (s : Bool) :
    (llmRoutes s l).length = l.length := by
  induction l generalizing s with
  | nil => rfl
  | cons b rest ih =>
    show ((generateStep b s).2 :: llmRoutes (generateStep b s).1 rest).length = _
    simp [ih]

theorem executeAgentSequence_length (run : AgentConfig → ExecResult)
    (seqn : List AgentConfig) (m : List (String × ExecResult)) :
    (executeAgentSequence run seqn m).length ≤ seqn.length := by
  induction seqn generalizing m with
  | nil => simp [executeAgentSequence]
  | cons cfg rest ih =>
    cases h : dependenciesSatisfied cfg.depends_on m with
    | false =>
      have hskip : executeAgentSequence run (cfg :: rest) m =
          executeAgentSequence run rest m := by
        simp [executeAgentSequence, h]
      rw [hskip]
      exact Nat.le_succ_of_le (ih m)
    | true =>
      have hrun : executeAgentSequence run (cfg :: rest) m =
          run cfg :: executeAgentSequence run rest
            (if (run cfg).success then trackSuccess cfg (run cfg) m else m) := by
        simp [executeAgentSequence, h]
      rw [hrun]
      exact Nat.succ_le_succ (ih _)

theorem findIdx_none_of_all {α : Type} (p : α → Bool) (l : List α)
    (h : ∀ a ∈ l, p a = false) : l.findIdx? p = none := by
  induction l with
  | nil => rfl
  | cons a rest ih =>
    have ha := h a (List.mem_cons_self a rest)
    simp only [List.findIdx?_cons, ha]
    simpa using fun x hx => h x (List.mem_cons_of_mem a hx)

/-! ## Helper lemmas for the extractor round-trip -/

theorem isDigitChar_toNat {c : Char} (h : isDigitChar c = true) :
    48 ≤ c.toNat ∧ c.toNat ≤ 57 := by
  simpa [isDigitChar, Bool.and_eq_true, decide_eq_true_eq] using h

theorem digit_branch_facts {c : Char} (h : isDigitChar c = true) :
    jsonWs c = false ∧ pyWs c = false ∧ c ≠ 'n' ∧ c ≠ 't' ∧ c ≠ 'f' ∧
      c ≠ '"' ∧ c ≠ '-' ∧ c ≠ '[' ∧ c ≠ '\x7b' ∧ c ≠ ']' ∧ c ≠ '\x7d' ∧
      c ≠ ',' ∧ c ≠ ':' := by
  have hb := isDigitChar_toNat h
  refine ⟨?_, ?_, ?_, ?_, ?_, ?_, ?_, ?_, ?_, ?_, ?_, ?_, ?_⟩
  · simp only [jsonWs, Bool.or_eq_false_iff, decide_eq_false_iff_not]
    omega
  · simp only [pyWs, Bool.or_eq_false_iff, decide_eq_false_iff_not]
    omega
  all_goals
    intro he
    subst he
    exact absurd hb (by decide)

theorem digitChar_spec : ∀ n : Nat, n < 10 →
    isDigitChar (digitChar n) = true ∧ (digitChar n).toNat = 48 + n := by
  intro n h
  interval_cases n <;> exact ⟨by decide, by decide⟩

theorem digitChar_isDigit : ∀ n : Nat, isDigitChar (digitChar n) = true := by
  intro n
  rcases n with _|_|_|_|_|_|_|_|_|m <;> rfl

theorem hexVal_hexDigitChar : ∀ n : Nat, n < 16 →
    hexVal (hexDigitChar n) = some n := by
  intro n h
  interval_cases n <;> decide

theorem digitsVal_concat (xs : List Char) (c : Char) :
    digitsVal (xs ++ [c]) = digitsVal xs * 10 + (c.toNat - 48) := by
  simp [digitsVal, List.foldl_append]

theorem dumpNatAux_spec : ∀ fuel n, n < fuel →
    dumpNatAux fuel n ≠ [] ∧
      (∀ c ∈ dumpNatAux fuel n, isDigitChar c = true) ∧
      digitsVal (dumpNatAux fuel n) = n := by
  intro fuel
  induction fuel with
  | zero => intro n h; omega
  | succ fuel ih =>
    intro n h
    by_cases h10 : n < 10
    · refine ⟨by simp [dumpNatAux, h10], ?_, ?_⟩
      · intro c hc
        simp [dumpNatAux, h10] at hc
        subst hc
        exact digitChar_isDigit n
      · simp [dumpNatAux, h10, digitsVal, (digitChar_spec n h10).2]
    · have hrec := ih (n / 10) (by omega)
      have hmod := digitChar_spec (n % 10) (by omega)
      refine ⟨by simp [dumpNatAux, h10], ?_, ?_⟩
      · intro c hc
        simp only [dumpNatAux, h10, if_false, List.mem_append,
          List.mem_singleton] at hc
        rcases hc with hc | hc
        · exact hrec.2.1 c hc
        · subst hc; exact hmod.1
      · simp only [dumpNatAux, h10, if_false]
        rw [digitsVal_concat, hrec.2.2, hmod.2]
        omega

theorem dumpNat_spec (n : Nat) :
    dumpNat n ≠ [] ∧ (∀ c ∈ dumpNat n, isDigitChar c = true) ∧
      digitsVal (dumpNat n) = n :=
  dumpNatAux_spec (n + 1) n (by omega)

theorem spanDigits_append (ds r : List Char)
    (hd : ∀ c ∈ ds, isDigitChar c = true) (hr : noDigitHead r = true) :
    spanDigits (ds ++ r) = (ds, r) := by
  induction ds with
  | nil =>
    cases r with
    | nil => rfl
    | cons c t =>
      have : isDigitChar c = false := by
        simpa [noDigitHead] using hr
      simp [spanDigits, this]
  | cons d ds ih =>
    have hd0 : isDigitChar d = true := hd d (List.mem_cons_self d ds)
    have := ih (fun c hc => hd c (List.mem_cons_of_mem d hc))
    simp [spanDigits, hd0, this]

theorem skipWs_cons_not {c : Char} (r : List Char) (h : jsonWs c = false) :
    skipWs (c :: r) = c :: r := by
  simp [skipWs, h]

theorem parseStringBody_escapeChar (c : Char) (tail : List Char) :
    parseStringBody (escapeChar c ++ tail) =
      (parseStringBody tail).map (fun p => (c :: p.1, p.2)) := by
  by_cases h1 : c = '"'
  · subst h1
    rw [show escapeChar '"' ++ tail = '\\' :: '"' :: tail from rfl,
      parseStringBody.eq_def]
    simp [unescapeChar]
  by_cases h2 : c = '\\'
  · subst h2
    rw [show escapeChar '\\' ++ tail = '\\' :: '\\' :: tail from rfl,
      parseStringBody.eq_def]
    simp [unescapeChar]
  by_cases h3 : c = '\n'
  · subst h3
    rw [show escapeChar '\n' ++ tail = '\\' :: 'n' :: tail from rfl,
      parseStringBody.eq_def]
    simp [unescapeChar]
  by_cases h4 : c = '\t'
  · subst h4
    rw [show escapeChar '\t' ++ tail = '\\' :: 't' :: tail from rfl,
      parseStringBody.eq_def]
    simp [unescapeChar]
  by_cases h5 : c = '\r'
  · subst h5
    rw [show escapeChar '\r' ++ tail = '\\' :: 'r' :: tail from rfl,
      parseStringBody.eq_def]
    simp [unescapeChar]
  by_cases h6 : c = '\x08'
  · subst h6
    rw [show escapeChar '\x08' ++ tail = '\\' :: 'b' :: tail from rfl,
      parseStringBody.eq_def]
    simp [unescapeChar]
  by_cases h7 : c = '\x0c'
  · subst h7
    rw [show escapeChar '\x0c' ++ tail = '\\' :: 'f' :: tail from rfl,
      parseStringBody.eq_def]
    simp [unescapeChar]
  by_cases h8 : c.toNat < 32
  · have hdiv : c.toNat / 16 < 16 := by omega
    have hmod : c.toNat % 16 < 16 := by omega
    have e1 := hexVal_hexDigitChar (c.toNat / 16) hdiv
    have e2 := hexVal_hexDigitChar (c.toNat % 16) hmod
    have harg : ((0 * 16 + 0) * 16 + c.toNat / 16) * 16 + c.toNat % 16 =
        c.toNat := by omega
    have hshape : escapeChar c ++ tail =
        '\\' :: 'u' :: '0' :: '0' :: hexDigitChar (c.toNat / 16) ::
          hexDigitChar (c.toNat % 16) :: tail := by
      simp [escapeChar, h1, h2, h3, h4, h5, h6, h7, h8]
    rw [hshape, parseStringBody.eq_def]
    simp only [reduceIte, show hexVal '0' = some 0 from by decide, e1, e2]
    rw [harg]
    simp [Char.ofNat_toNat]
  · have hshape : escapeChar c ++ tail = c :: tail := by
      simp [escapeChar, h1, h2, h3, h4, h5, h6, h7, h8]
    rw [hshape, parseStringBody.eq_def]
    simp [h1, h2, h8]

theorem parseStringBody_escape (s rest : List Char) :
    parseStringBody (escapeStr s ++ ('"' :: rest)) = some (s, rest) := by
  induction s with
  | nil =>
    rw [show escapeStr [] ++ ('"' :: rest) = '"' :: rest from rfl,
      parseStringBody.eq_def]
    simp
  | cons c s ih =>
    show parseStringBody ((escapeChar c ++ escapeStr s) ++ ('"' :: rest)) = _
    rw [List.append_assoc, parseStringBody_escapeChar, ih]
    rfl

theorem isPrefOf_refl_append : ∀ l t : List Char, isPrefOf l (l ++ t) = true := by
  intro l
  induction l with
  | nil => intro t; rfl
  | cons c l ih => intro t; simp [isPrefOf, ih]

theorem isPrefOf_iff_append {pat l : List Char} :
    isPrefOf pat l = true ↔ ∃ t, l = pat ++ t := by
  constructor
  · intro h
    induction pat generalizing l with
    | nil => exact ⟨l, rfl⟩
    | cons p ps ih =>
      cases l with
      | nil => simp [isPrefOf] at h
      | cons a l =>
        simp only [isPrefOf, Bool.and_eq_true, beq_iff_eq] at h
        obtain ⟨t, ht⟩ := ih h.2
        exact ⟨t, by simp [h.1, ht]⟩
  · rintro ⟨t, rfl⟩
    exact isPrefOf_refl_append pat t

theorem sval_pos : ∀ j : JVal, 1 ≤ sval j := by
  intro j
  cases j <;> simp [sval]

theorem sarr_pos : ∀ a : JArr, 1 ≤ sarr a := by
  intro a
  cases a <;> simp [sarr]

theorem sobj_pos : ∀ o : JObj, 1 ≤ sobj o := by
  intro o
  cases o <;> simp [sobj]

mutual
theorem sval_le_dump : ∀ j : JVal, sval j ≤ (dumpVal j).length
  | JVal.jnull => by decide
  | JVal.jbool b => by cases b <;> decide
  | JVal.jnum n => by
    cases n with
    | ofNat m =>
      have h := (dumpNat_spec m).1
      have : 0 < (dumpNat m).length := List.length_pos.mpr h
      simpa [sval, dumpVal, dumpInt] using this
    | negSucc m => simp [sval, dumpVal, dumpInt]
  | JVal.jstr s => by simp [sval, dumpVal]
  | JVal.jarr a => by
    have h := sarr_le_dump a
    simp only [sval, dumpVal, List.length_cons, List.length_append,
      List.length_singleton]
    omega
  | JVal.jobj o => by
    have h := sobj_le_dump o
    simp only [sval, dumpVal, List.length_cons, List.length_append,
      List.length_singleton]
    omega
theorem sarr_le_dump : ∀ a : JArr, sarr a ≤ (dumpArrItems a).length + 1
  | JArr.anil => by decide
  | JArr.acons v JArr.anil => by
    have h1 := sval_le_dump v
    have h2 := sval_pos v
    have hmax : max (sval v) (sarr JArr.anil) ≤ (dumpVal v).length :=
      Nat.max_le.mpr ⟨h1, by simp only [sarr]; omega⟩
    simp only [sarr, dumpArrItems]
    omega
  | JArr.acons v (JArr.acons w t) => by
    have h1 := sval_le_dump v
    have h2 := sarr_le_dump (JArr.acons w t)
    have hmax : max (sval v) (sarr (JArr.acons w t)) ≤
        (dumpVal v).length + (dumpArrItems (JArr.acons w t)).length + 1 :=
      Nat.max_le.mpr ⟨by omega, by omega⟩
    show 1 + max (sval v) (sarr (JArr.acons w t)) ≤
      (dumpVal v ++ (',' :: dumpArrItems (JArr.acons w t))).length + 1
    simp only [List.length_append, List.length_cons]
    omega
theorem sobj_le_dump : ∀ o : JObj, sobj o ≤ (dumpObjItems o).length + 1
  | JObj.onil => by decide
  | JObj.ocons k v JObj.onil => by
    have h1 := sval_le_dump v
    have h2 := sval_pos v
    have hmax : max (sval v) (sobj JObj.onil) ≤ (dumpVal v).length :=
      Nat.max_le.mpr ⟨h1, by simp only [sobj]; omega⟩
    simp only [sobj, dumpObjItems, List.length_cons, List.length_append]
    omega
  | JObj.ocons k v (JObj.ocons k2 v2 t) => by
    have h1 := sval_le_dump v
    have h2 := sobj_le_dump (JObj.ocons k2 v2 t)
    have hmax : max (sval v) (sobj (JObj.ocons k2 v2 t)) ≤
        (dumpVal v).length + (dumpObjItems (JObj.ocons k2 v2 t)).length + 1 :=
      Nat.max_le.mpr ⟨by omega, by omega⟩
    show 1 + max (sval v) (sobj (JObj.ocons k2 v2 t)) ≤
      (('"' :: (escapeStr k ++ ('"' :: ':' :: dumpVal v))) ++
        (',' :: dumpObjItems (JObj.ocons k2 v2 t))).length + 1
    simp only [List.length_append, List.length_cons]
    omega
end

theorem dump_head_spec : ∀ j : JVal, ∃ c t, dumpVal j = c :: t ∧
    (c = 'n' ∨ c = 't' ∨ c = 'f' ∨ c = '"' ∨ c = '-' ∨ c = '[' ∨
      c = '\x7b' ∨ isDigitChar c = true) := by
  intro j
  cases j with
  | jnull => exact ⟨'n', _, rfl, by simp⟩
  | jbool b =>
    cases b
    · exact ⟨'f', _, rfl, by simp⟩
    · exact ⟨'t', _, rfl, by simp⟩
  | jnum n =>
    cases n with
    | ofNat m =>
      obtain ⟨c, t, hct⟩ := List.exists_cons_of_ne_nil (dumpNat_spec m).1
      refine ⟨c, t, hct, Or.inr (Or.inr (Or.inr (Or.inr (Or.inr (Or.inr
        (Or.inr ?_))))))⟩
      exact (dumpNat_spec m).2.1 c (by rw [hct]; exact List.mem_cons_self c t)
    | negSucc m => exact ⟨'-', _, rfl, by simp⟩
  | jstr s => exact ⟨'"', _, rfl, by simp⟩
  | jarr a => exact ⟨'[', _, rfl, by simp⟩
  | jobj o => exact ⟨'\x7b', _, rfl, by simp⟩

theorem valStart_facts {c : Char}
    (h : c = 'n' ∨ c = 't' ∨ c = 'f' ∨ c = '"' ∨ c = '-' ∨ c = '[' ∨
      c = '\x7b' ∨ isDigitChar c = true) :
    jsonWs c = false ∧ pyWs c = false ∧ (c == ']') = false ∧
      (c == '\x7d') = false ∧ c ≠ '`' := by
  rcases h with rfl | rfl | rfl | rfl | rfl | rfl | rfl | h
  · exact ⟨by decide, by decide, by decide, by decide, by decide⟩
  · exact ⟨by decide, by decide, by decide, by decide, by decide⟩
  · exact ⟨by decide, by decide, by decide, by decide, by decide⟩
  · exact ⟨by decide, by decide, by decide, by decide, by decide⟩
  · exact ⟨by decide, by decide, by decide, by decide, by decide⟩
  · exact ⟨by decide, by decide, by decide, by decide, by decide⟩
  · exact ⟨by decide, by decide, by decide, by decide, by decide⟩
  · have hb := isDigitChar_toNat h
    have hd := digit_branch_facts h
    refine ⟨hd.1, hd.2.1, ?_, ?_, ?_⟩
    · simp [beq_eq_false_iff_ne]
      exact hd.2.2.2.2.2.2.2.2.2.1
    · simp [beq_eq_false_iff_ne]
      exact hd.2.2.2.2.2.2.2.2.2.2.1
    · intro he
      subst he
      exact absurd hb (by decide)

theorem dump_last_not_pyWs : ∀ (j : JVal) (c : Char),
    (dumpVal j).getLast? = some c → pyWs c = false := by
  intro j c h
  cases j with
  | jnull =>
    rw [show (dumpVal JVal.jnull).getLast? = some 'l' from rfl] at h
    cases h
    decide
  | jbool b =>
    cases b
    · rw [show (dumpVal (JVal.jbool false)).getLast? = some 'e' from rfl] at h
      cases h
      decide
    · rw [show (dumpVal (JVal.jbool true)).getLast? = some 'e' from rfl] at h
      cases h
      decide
  | jnum n =>
    cases n with
    | ofNat m =>
      have hmem := List.mem_of_getLast?_eq_some h
      exact (digit_branch_facts ((dumpNat_spec m).2.1 c hmem)).2.1
    | negSucc m =>
      have hmem : c ∈ '-' :: dumpNat (m + 1) := List.mem_of_getLast?_eq_some h
      rcases List.mem_cons.mp hmem with rfl | hmem
      · decide
      · exact (digit_branch_facts ((dumpNat_spec (m + 1)).2.1 c hmem)).2.1
  | jstr s =>
    have : (dumpVal (JVal.jstr s)).getLast? = some '"' := by
      show ('"' :: (escapeStr s ++ ['"'])).getLast? = some '"'
      rw [show '"' :: (escapeStr s ++ ['"']) = ('"' :: escapeStr s) ++ ['"']
        from by simp, List.getLast?_concat]
    rw [this] at h
    cases h
    decide
  | jarr a =>
    have : (dumpVal (JVal.jarr a)).getLast? = some ']' := by
      show ('[' :: (dumpArrItems a ++ [']'])).getLast? = some ']'
      rw [show '[' :: (dumpArrItems a ++ [']']) =
        ('[' :: dumpArrItems a) ++ [']'] from by simp, List.getLast?_concat]
    rw [this] at h
    cases h
    decide
  | jobj o =>
    have : (dumpVal (JVal.jobj o)).getLast? = some '\x7d' := by
      show ('\x7b' :: (dumpObjItems o ++ ['\x7d'])).getLast? = some '\x7d'
      rw [show '\x7b' :: (dumpObjItems o ++ ['\x7d']) =
        ('\x7b' :: dumpObjItems o) ++ ['\x7d'] from by simp,
        List.getLast?_concat]
    rw [this] at h
    cases h
    decide

theorem skipWs_dump (j : JVal) (rest : List Char) :
    skipWs (dumpVal j ++ rest) = dumpVal j ++ rest := by
  obtain ⟨c, t, hct, hvs⟩ := dump_head_spec j
  rw [hct]
  exact skipWs_cons_not _ (valStart_facts hvs).1

theorem headIs_dump_append (j : JVal) (rest : List Char) (b : Char)
    (hb : b = ']' ∨ b = '\x7d') :
    headIs (dumpVal j ++ rest) b = false := by
  obtain ⟨c, t, hct, hvs⟩ := dump_head_spec j
  rw [hct]
  show (c == b) = false
  rcases hb with rfl | rfl
  · exact (valStart_facts hvs).2.2.1
  · exact (valStart_facts hvs).2.2.2.1

theorem dumpArrItems_cons_eq (v : JVal) (t : JArr) : ∃ y,
    dumpArrItems (JArr.acons v t) = dumpVal v ++ y := by
  cases t with
  | anil => exact ⟨[], by simp [dumpArrItems]⟩
  | acons w t2 => exact ⟨',' :: dumpArrItems (JArr.acons w t2), rfl⟩

/-- The round-trip of the serializer through the parser, by induction on
fuel: with enough fuel, parsing the serialization of a value followed by
any non-digit-headed remainder recovers exactly that value. -/
theorem parse_dump : ∀ fuel : Nat,
    (∀ (j : JVal) (rest : List Char), sval j ≤ fuel → noDigitHead rest = true →
      parseVal fuel (dumpVal j ++ rest) = some (j, rest)) ∧
    (∀ (a : JArr) (rest : List Char), sarr a ≤ fuel → a ≠ JArr.anil →
      parseArrItems fuel (dumpArrItems a ++ (']' :: rest)) = some (a, rest)) ∧
    (∀ (o : JObj) (rest : List Char), sobj o ≤ fuel → o ≠ JObj.onil →
      parseObjItems fuel (dumpObjItems o ++ ('\x7d' :: rest)) = some (o, rest)) := by
  intro fuel
  induction fuel with
  | zero =>
    refine ⟨fun j rest h1 _ => absurd h1 (by have := sval_pos j; omega),
      fun a rest h1 _ => absurd h1 (by have := sarr_pos a; omega),
      fun o rest h1 _ => absurd h1 (by have := sobj_pos o; omega)⟩
  | succ fuel ih =>
    obtain ⟨ihv, iha, iho⟩ := ih
    refine ⟨?_, ?_, ?_⟩
    · intro j rest hs hrest
      cases j with
      | jnull =>
        rw [parseVal.eq_def]
        simp [skipWs, jsonWs, dumpVal]
      | jbool b =>
        cases b <;> (rw [parseVal.eq_def]; simp [skipWs, jsonWs, dumpVal])
      | jnum n =>
        cases n with
        | ofNat m =>
          obtain ⟨hne, hdig, hval⟩ := dumpNat_spec m
          obtain ⟨c, t, hct⟩ := List.exists_cons_of_ne_nil hne
          have hc : isDigitChar c = true := by
            refine hdig c ?_
            rw [hct]
            exact List.mem_cons_self c t
          obtain ⟨hws, hpw, hn, ht2, hf2, hq2, hm2, hlb, hob, hrb, hrc, hcm,
            hcl⟩ := digit_branch_facts hc
          have hspan : spanDigits ((c :: t) ++ rest) = (c :: t, rest) := by
            rw [← hct]
            exact spanDigits_append _ _ hdig hrest
          have hv2 : digitsVal (c :: t) = m := by
            rw [← hct]
            exact hval
          have hgoal : dumpVal (JVal.jnum (Int.ofNat m)) ++ rest =
              c :: (t ++ rest) := by
            rw [show dumpVal (JVal.jnum (Int.ofNat m)) = dumpNat m from rfl,
              hct]
            rfl
          rw [hgoal, parseVal.eq_def]
          simp only [skipWs_cons_not _ hws, if_neg hn, if_neg ht2, if_neg hf2,
            if_neg hq2, if_neg hm2, if_neg hlb, if_neg hob, if_pos hc]
          rw [show spanDigits (c :: (t ++ rest)) = (c :: t, rest) from hspan]
          simp [hv2]
        | negSucc m =>
          obtain ⟨hne, hdig, hval⟩ := dumpNat_spec (m + 1)
          obtain ⟨c, t, hct⟩ := List.exists_cons_of_ne_nil hne
          have hspan : spanDigits ((c :: t) ++ rest) = (c :: t, rest) := by
            rw [← hct]
            exact spanDigits_append _ _ hdig hrest
          have hv2 : digitsVal (c :: t) = m + 1 := by
            rw [← hct]
            exact hval
          have hneg : -(((m + 1 : Nat) : Int)) = Int.negSucc m := by
            rw [Int.negSucc_eq]
            omega
          have hgoal : dumpVal (JVal.jnum (Int.negSucc m)) ++ rest =
              '-' :: ((c :: t) ++ rest) := by
            rw [show dumpVal (JVal.jnum (Int.negSucc m)) =
              '-' :: dumpNat (m + 1) from rfl, hct]
            rfl
          rw [hgoal, parseVal.eq_def]
          simp only [skipWs_cons_not _ (by decide : jsonWs '-' = false),
            reduceIte]
          rw [hspan]
          simp only [hv2]
          simp
          omega
      | jstr s =>
        have hshape : dumpVal (JVal.jstr s) ++ rest =
            '"' :: (escapeStr s ++ ('"' :: rest)) := by
          show ('"' :: (escapeStr s ++ ['"'])) ++ rest = _
          simp
        rw [hshape, parseVal.eq_def]
        simp only [skipWs_cons_not _ (by decide : jsonWs '"' = false),
          reduceIte]
        simp [parseStringBody_escape]
      | jarr a =>
        cases a with
        | anil =>
          rw [parseVal.eq_def]
          simp [skipWs, jsonWs, headIs, dumpVal, dumpArrItems]
        | acons v t =>
          have hsa : sarr (JArr.acons v t) ≤ fuel := by
            have : sval (JVal.jarr (JArr.acons v t)) =
                1 + sarr (JArr.acons v t) := rfl
            omega
          obtain ⟨y, hy⟩ := dumpArrItems_cons_eq v t
          have hshape : dumpVal (JVal.jarr (JArr.acons v t)) ++ rest =
              '[' :: (dumpArrItems (JArr.acons v t) ++ (']' :: rest)) := by
            show ('[' :: (dumpArrItems (JArr.acons v t) ++ [']'])) ++ rest = _
            simp
          have hmid : dumpArrItems (JArr.acons v t) ++ (']' :: rest) =
              dumpVal v ++ (y ++ (']' :: rest)) := by
            rw [hy, List.append_assoc]
          have hskip : skipWs (dumpArrItems (JArr.acons v t) ++ (']' :: rest)) =
              dumpArrItems (JArr.acons v t) ++ (']' :: rest) := by
            rw [hmid]
            exact skipWs_dump v _
          have hhead : headIs (skipWs (dumpArrItems (JArr.acons v t) ++
              (']' :: rest))) ']' = false := by
            rw [hskip, hmid]
            exact headIs_dump_append v _ _ (Or.inl rfl)
          rw [hshape, parseVal.eq_def]
          simp only [skipWs_cons_not _ (by decide : jsonWs '[' = false),
            reduceIte]
          simp only [hhead, Bool.false_eq_true, if_false,
            iha (JArr.acons v t) rest hsa (by simp)]
          rfl
      | jobj o =>
        cases o with
        | onil =>
          rw [parseVal.eq_def]
          simp [skipWs, jsonWs, headIs, dumpVal, dumpObjItems]
        | ocons k v t =>
          have hso : sobj (JObj.ocons k v t) ≤ fuel := by
            have : sval (JVal.jobj (JObj.ocons k v t)) =
                1 + sobj (JObj.ocons k v t) := rfl
            omega
          have hshape : dumpVal (JVal.jobj (JObj.ocons k v t)) ++ rest =
              '\x7b' :: (dumpObjItems (JObj.ocons k v t) ++ ('\x7d' :: rest)) := by
            show ('\x7b' :: (dumpObjItems (JObj.ocons k v t) ++ ['\x7d'])) ++ rest = _
            simp
          have hskip : skipWs (dumpObjItems (JObj.ocons k v t) ++
              ('\x7d' :: rest)) =
              dumpObjItems (JObj.ocons k v t) ++ ('\x7d' :: rest) := by
            cases t <;>
              exact skipWs_cons_not _ (by decide : jsonWs '"' = false)
          have hhead : headIs (skipWs (dumpObjItems (JObj.ocons k v t) ++
              ('\x7d' :: rest))) '\x7d' = false := by
            rw [hskip]
            cases t <;> rfl
          rw [hshape, parseVal.eq_def]
          simp only [skipWs_cons_not _ (by decide : jsonWs '\x7b' = false),
            reduceIte]
          simp only [hhead, Bool.false_eq_true, if_false,
            iho (JObj.ocons k v t) rest hso (by simp)]
          rfl
    · intro a rest hs hne
      cases a with
      | anil => exact absurd rfl hne
      | acons v t =>
        have hsv : sval v ≤ fuel := by
          have h1 : sarr (JArr.acons v t) = 1 + max (sval v) (sarr t) := rfl
          have h2 := Nat.le_max_left (sval v) (sarr t)
          omega
        cases t with
        | anil =>
          have hv := ihv v (']' :: rest) hsv (by rfl)
          rw [show dumpArrItems (JArr.acons v JArr.anil) ++ (']' :: rest) =
            dumpVal v ++ (']' :: rest) from by simp [dumpArrItems]]
          rw [parseArrItems.eq_def]
          simp only [hv]
          simp only [skipWs_cons_not _ (by decide : jsonWs ']' = false)]
          simp
        | acons w t2 =>
          have hst : sarr (JArr.acons w t2) ≤ fuel := by
            have h1 : sarr (JArr.acons v (JArr.acons w t2)) =
                1 + max (sval v) (sarr (JArr.acons w t2)) := rfl
            have h2 := Nat.le_max_right (sval v) (sarr (JArr.acons w t2))
            omega
          have hv := ihv v
            (',' :: (dumpArrItems (JArr.acons w t2) ++ (']' :: rest))) hsv
            (by rfl)
          have ht := iha (JArr.acons w t2) rest hst (by simp)
          rw [show dumpArrItems (JArr.acons v (JArr.acons w t2)) ++
            (']' :: rest) = dumpVal v ++
              (',' :: (dumpArrItems (JArr.acons w t2) ++ (']' :: rest)))
            from by simp [dumpArrItems]]
          rw [parseArrItems.eq_def]
          simp only [hv]
          simp only [skipWs_cons_not _ (by decide : jsonWs ',' = false)]
          simp [ht]
    · intro o rest hs hne
      cases o with
      | onil => exact absurd rfl hne
      | ocons k v t =>
        have hsv : sval v ≤ fuel := by
          have h1 : sobj (JObj.ocons k v t) = 1 + max (sval v) (sobj t) := rfl
          have h2 := Nat.le_max_left (sval v) (sobj t)
          omega
        cases t with
        | onil =>
          have hkey := parseStringBody_escape k
            (':' :: (dumpVal v ++ ('\x7d' :: rest)))
          have hv := ihv v ('\x7d' :: rest) hsv (by rfl)
          rw [show dumpObjItems (JObj.ocons k v JObj.onil) ++ ('\x7d' :: rest) =
            '"' :: (escapeStr k ++ ('"' :: (':' :: (dumpVal v ++
              ('\x7d' :: rest))))) from by simp [dumpObjItems]]
          rw [parseObjItems.eq_def]
          simp only [skipWs_cons_not _ (by decide : jsonWs '"' = false)]
          simp only [reduceIte, hkey]
          simp only [skipWs_cons_not _ (by decide : jsonWs ':' = false)]
          simp only [reduceIte, hv]
          simp only [skipWs_cons_not _ (by decide : jsonWs '\x7d' = false)]
          simp
        | ocons k2 v2 t2 =>
          have hst : sobj (JObj.ocons k2 v2 t2) ≤ fuel := by
            have h1 : sobj (JObj.ocons k v (JObj.ocons k2 v2 t2)) =
                1 + max (sval v) (sobj (JObj.ocons k2 v2 t2)) := rfl
            have h2 := Nat.le_max_right (sval v) (sobj (JObj.ocons k2 v2 t2))
            omega
          have hkey := parseStringBody_escape k (':' :: (dumpVal v ++
            (',' :: (dumpObjItems (JObj.ocons k2 v2 t2) ++ ('\x7d' :: rest)))))
          have hv := ihv v (',' :: (dumpObjItems (JObj.ocons k2 v2 t2) ++
            ('\x7d' :: rest))) hsv (by rfl)
          have ht := iho (JObj.ocons k2 v2 t2) rest hst (by simp)
          rw [show dumpObjItems (JObj.ocons k v (JObj.ocons k2 v2 t2)) ++
            ('\x7d' :: rest) = '"' :: (escapeStr k ++ ('"' :: (':' ::
              (dumpVal v ++ (',' :: (dumpObjItems (JObj.ocons k2 v2 t2) ++
                ('\x7d' :: rest))))))) from by simp [dumpObjItems]]
          rw [parseObjItems.eq_def]
          simp only [skipWs_cons_not _ (by decide : jsonWs '"' = false)]
          simp only [reduceIte, hkey]
          simp only [skipWs_cons_not _ (by decide : jsonWs ':' = false)]
          simp only [reduceIte, hv]
          simp only [skipWs_cons_not _ (by decide : jsonWs ',' = false)]
          simp [ht]

theorem isPrefOf_cons_ne (c0 y : Char) (pat rest : List Char) (h : y ≠ c0) :
    isPrefOf (c0 :: pat) (y :: rest) = false := by
  show (c0 == y && isPrefOf pat rest) = false
  have hb : (c0 == y) = false := beq_eq_false_iff_ne.mpr (fun he => h he.symm)
  rw [hb, Bool.false_and]

theorem findSub_append_first : ∀ (a r pat : List Char),
    (∀ k, k < a.length → isPrefOf pat (a.drop k ++ r) = false) →
    isPrefOf pat r = true →
    findSub (a ++ r) pat = some a.length := by
  intro a
  induction a with
  | nil =>
    intro r pat _ hpr
    obtain ⟨t, rfl⟩ := isPrefOf_iff_append.mp hpr
    cases pat with
    | nil => cases t <;> rfl
    | cons p ps =>
      show findSub (p :: (ps ++ t)) (p :: ps) = some 0
      have hp : isPrefOf (p :: ps) (p :: (ps ++ t)) = true :=
        isPrefOf_refl_append (p :: ps) t
      simp only [findSub]
      simp [hp]
  | cons x a ih =>
    intro r pat hwin hpr
    have h0 : isPrefOf pat (x :: (a ++ r)) = false :=
      hwin 0 (by simp only [List.length_cons]; omega)
    show findSub (x :: (a ++ r)) pat = some (a.length + 1)
    simp only [findSub, h0, Bool.false_eq_true, if_false]
    rw [ih r pat
      (fun k hk => hwin (k + 1) (by simp only [List.length_cons]; omega)) hpr]
    rfl

theorem containsSub_of_prefix_drop : ∀ (l : List Char) (k : Nat)
    (pat : List Char),
    isPrefOf pat (l.drop k) = true → containsSub l pat = true := by
  intro l
  induction l with
  | nil =>
    intro k pat h
    rw [List.drop_nil] at h
    cases pat with
    | nil => rfl
    | cons p ps => exact absurd h (by simp [isPrefOf])
  | cons c t ih =>
    intro k pat h
    cases k with
    | zero =>
      rw [List.drop_zero] at h
      simp [containsSub, findSub, h]
    | succ k2 =>
      by_cases hp : isPrefOf pat (c :: t) = true
      · simp [containsSub, findSub, hp]
      · have hp2 : isPrefOf pat (c :: t) = false := by
          cases hb : isPrefOf pat (c :: t)
          · rfl
          · exact absurd hb hp
        have ht := ih k2 pat h
        simp only [containsSub] at ht
        obtain ⟨v, hv⟩ := Option.isSome_iff_exists.mp ht
        simp [containsSub, findSub, hp2, hv]

theorem isPrefOf3_break : ∀ (d : List Char) (x : Char) (rest : List Char)
    (c0 c1 c2 : Char), x ≠ c0 → x ≠ c1 → x ≠ c2 →
    isPrefOf [c0, c1, c2] (d ++ x :: rest) = true →
    isPrefOf [c0, c1, c2] d = true := by
  intro d x rest c0 c1 c2 h0 h1 h2 hp
  rcases d with _ | ⟨a, _ | ⟨b, _ | ⟨c, t⟩⟩⟩
  · simp only [List.nil_append, isPrefOf, Bool.and_eq_true, beq_iff_eq] at hp
    exact absurd hp.1.symm h0
  · simp only [List.cons_append, List.nil_append, isPrefOf,
      Bool.and_eq_true, beq_iff_eq] at hp
    exact absurd hp.2.1.symm h1
  · simp only [List.cons_append, List.nil_append, isPrefOf,
      Bool.and_eq_true, beq_iff_eq] at hp
    exact absurd hp.2.2.1.symm h2
  · simp only [List.cons_append, isPrefOf, Bool.and_eq_true,
      beq_iff_eq] at hp
    simp only [isPrefOf, Bool.and_eq_true, beq_iff_eq]
    exact ⟨hp.1, hp.2.1, hp.2.2.1, trivial⟩

theorem dropWhile_append_cons (p : Char → Bool) (a : List Char) (c : Char)
    (z : List Char) (hc : p c = false) :
    List.dropWhile p (a ++ c :: z) = List.dropWhile p a ++ c :: z := by
  induction a with
  | nil => simp [List.dropWhile_cons, hc]
  | cons x t ih =>
    cases hx : p x
    · simp [List.dropWhile_cons, hx]
    · simp [List.dropWhile_cons, hx, ih]

theorem sliceList_middle (a b c : List Char) :
    sliceList (a ++ (b ++ c)) a.length (a.length + b.length) = b := by
  show ((a ++ (b ++ c)).take (a.length + b.length)).drop a.length = b
  rw [show a.length + b.length = (a ++ b).length from by simp,
    ← List.append_assoc, List.take_left, List.drop_left]

theorem pyStrip_around (pre mid post : List Char) (c1 c2 : Char)
    (h1 : pyWs c1 = false) (h2 : pyWs c2 = false) :
    pyStrip (pre ++ (c1 :: (mid ++ [c2])) ++ post) =
      List.dropWhile pyWs pre ++ (c1 :: (mid ++ [c2])) ++
        (List.dropWhile pyWs post.reverse).reverse := by
  have e1 : pre ++ (c1 :: (mid ++ [c2])) ++ post =
      pre ++ c1 :: (mid ++ c2 :: post) := by simp
  unfold pyStrip
  rw [e1, dropWhile_append_cons _ _ _ _ h1]
  rw [show (List.dropWhile pyWs pre ++ c1 :: (mid ++ c2 :: post)).reverse =
    post.reverse ++ c2 :: (mid.reverse ++ c1 ::
      (List.dropWhile pyWs pre).reverse) from by simp]
  rw [dropWhile_append_cons _ _ _ _ h2]
  simp

theorem pyStrip_nl_wrap (j : JVal) :
    pyStrip ('\n' :: (dumpVal j ++ ['\n'])) = dumpVal j := by
  obtain ⟨c, t, hct, hvs⟩ := dump_head_spec j
  have hcw : pyWs c = false := (valStart_facts hvs).2.1
  unfold pyStrip
  have hd1 : List.dropWhile pyWs ('\n' :: (dumpVal j ++ ['\n'])) =
      dumpVal j ++ ['\n'] := by
    rw [List.dropWhile_cons, if_pos (by decide : pyWs '\n' = true)]
    rw [hct, List.cons_append, List.dropWhile_cons,
      if_neg (by simp [hcw] : ¬ pyWs c = true)]
  rw [hd1]
  rw [show (dumpVal j ++ ['\n']).reverse = '\n' :: (dumpVal j).reverse from
    by simp]
  rw [List.dropWhile_cons, if_pos (by decide : pyWs '\n' = true)]
  have hne : dumpVal j ≠ [] := by
    rw [hct]
    exact List.cons_ne_nil c t
  have hrev : (dumpVal j).reverse ≠ [] := by simpa using hne
  obtain ⟨x, xs, hx⟩ := List.exists_cons_of_ne_nil hrev
  have hlast : (dumpVal j).getLast? = some x := by
    rw [← List.head?_reverse, hx]
    rfl
  have hxw : pyWs x = false := dump_last_not_pyWs j x hlast
  rw [hx, List.dropWhile_cons, if_neg (by simp [hxw] : ¬ pyWs x = true)]
  rw [← hx, List.reverse_reverse]

theorem fence3_window (j : JVal) (q : List Char)
    (hf : containsSub (dumpVal j) fence3 = false) :
    ∀ k, k < ('\n' :: (dumpVal j ++ ['\n'])).length →
      isPrefOf fence3 (('\n' :: (dumpVal j ++ ['\n'])).drop k ++
        (fence3 ++ q)) = false := by
  intro k hk
  simp only [List.length_cons, List.length_append, List.length_nil,
    List.length_singleton] at hk
  cases k with
  | zero =>
    rw [List.drop_zero, List.cons_append]
    exact isPrefOf_cons_ne '`' '\n' _ _ (by decide)
  | succ k2 =>
    rw [List.drop_succ_cons]
    by_cases hk2 : k2 < (dumpVal j).length
    · rw [List.drop_append_of_le_length (by omega), List.append_assoc,
        List.singleton_append]
      cases hb : isPrefOf fence3 ((dumpVal j).drop k2 ++
          '\n' :: (fence3 ++ q))
      · rfl
      · exfalso
        have h3 : isPrefOf fence3 ((dumpVal j).drop k2) = true :=
          isPrefOf3_break _ '\n' _ '`' '`' '`' (by decide) (by decide)
            (by decide) hb
        have hc := containsSub_of_prefix_drop (dumpVal j) k2 fence3 h3
        rw [hf] at hc
        cases hc
    · have hk3 : k2 = (dumpVal j).length := by omega
      subst hk3
      rw [List.drop_left, List.singleton_append]
      exact isPrefOf_cons_ne '`' '\n' _ _ (by decide)

theorem fenceJson_window (p r : List Char) (hp : ∀ c ∈ p, c ≠ '`') :
    ∀ k, k < (List.dropWhile pyWs p).length →
      isPrefOf fenceJson ((List.dropWhile pyWs p).drop k ++ r) = false := by
  intro k hk
  have hlen : 0 < ((List.dropWhile pyWs p).drop k).length := by
    rw [List.length_drop]
    omega
  have hne : (List.dropWhile pyWs p).drop k ≠ [] := List.length_pos.mp hlen
  obtain ⟨y, ys, hy⟩ := List.exists_cons_of_ne_nil hne
  have hyp : y ∈ p := by
    have h1 : y ∈ (List.dropWhile pyWs p).drop k := by
      rw [hy]
      exact List.mem_cons_self y ys
    have h2 : y ∈ List.dropWhile pyWs p := List.mem_of_mem_drop h1
    exact (List.dropWhile_sublist _).subset h2
  rw [hy, List.cons_append]
  exact isPrefOf_cons_ne '`' y _ _ (hp y hyp)

/-! ## Claim theorems -/

/-- C1 (counterexample).  At a context that already holds client facts,
business facts and a pain point — so the deterministic fallback plan is the
minimal retrieve→compose plan — a planning exception makes `process_message`
return the `_create_error_response` envelope (with `error_occurred` metadata
and the planning error message) instead of executing the fallback plan: the
planning failure IS surfaced to the caller, refuting the claim. -/
theorem planning_failure_returns_error_envelope :
    processMessage (Except.error "LLM unavailable") okOracle ctxFactsAndPain "hello" =
      ProcessMessageOutcome.bareEnvelope (createErrorResponse
        "I\x27m having trouble analyzing your request. Could you provide more details about your client\x27s situation?"
        (some "Strategy analysis failed: LLM unavailable")) ∧
    (createFallbackStrategy (addMessage ctxFactsAndPain "user" "hello")).decision =
      some "execute_pipeline" :=
  ⟨rfl, rfl⟩

/-- C1 (amended).  Any exception during planning makes the strategy agent
return `success := false` with the deterministic fallback plan as content —
the minimal retrieve→compose plan exactly when the context holds any
client/business facts and pain points, a single clarify task otherwise —
but the orchestrator does not execute that plan: `process_message` returns
the error envelope to its caller. -/
theorem planning_fallback_plan_not_executed (e : String)
    (run : AgentConfig → ExecResult) (ctx : ConversationContext)
    (msg : String) :
    strategyProcess (Except.error e) ctx =
      { success := false
        content := createFallbackStrategy ctx
        confidence := 3/10
        error := some ("Strategy analysis failed: " ++ e) } ∧
    (((!ctx.client_context.isEmpty || !ctx.business_context.isEmpty) &&
        !ctx.pain_points.isEmpty) = true →
      createFallbackStrategy ctx =
        { decision := some "execute_pipeline"
          consultant_hypothesis :=
            some "Based on available context, attempting to provide service recommendations"
          agents_sequence := some [fallbackRagConfig, fallbackSummarizingConfig] }) ∧
    (((!ctx.client_context.isEmpty || !ctx.business_context.isEmpty) &&
        !ctx.pain_points.isEmpty) = false →
      createFallbackStrategy ctx =
        { decision := some "gather_more_context"
          consultant_analysis := some "Insufficient context for service recommendations"
          follow_up_focus := some "business_context"
          agents_sequence := some [fallbackClarifyConfig] }) ∧
    processMessage (Except.error e) run ctx msg =
      ProcessMessageOutcome.bareEnvelope (createErrorResponse
        "I\x27m having trouble analyzing your request. Could you provide more details about your client\x27s situation?"
        (some ("Strategy analysis failed: " ++ e))) := by
  refine ⟨rfl, ?_, ?_, rfl⟩
  · intro h
    simp [createFallbackStrategy, h]
  · intro h
    simp [createFallbackStrategy, h]

/-- C1 (witness): the amended theorem applied at concrete contexts, one
with facts and pain points, one without. -/
theorem planning_fallback_plan_not_executed_witness :
    strategyProcess (Except.error "provider down") ctxFactsAndPain =
      { success := false
        content := createFallbackStrategy ctxFactsAndPain
        confidence := 3/10
        error := some "Strategy analysis failed: provider down" } ∧
    createFallbackStrategy ctxFactsAndPain =
      { decision := some "execute_pipeline"
        consultant_hypothesis :=
          some "Based on available context, attempting to provide service recommendations"
        agents_sequence := some [fallbackRagConfig, fallbackSummarizingConfig] } ∧
    createFallbackStrategy ctxEmpty =
      { decision := some "gather_more_context"
        consultant_analysis := some "Insufficient context for service recommendations"
        follow_up_focus := some "business_context"
        agents_sequence := some [fallbackClarifyConfig] } ∧
    processMessage (Except.error "provider down") okOracle ctxFactsAndPain "hi" =
      ProcessMessageOutcome.bareEnvelope (createErrorResponse
        "I\x27m having trouble analyzing your request. Could you provide more details about your client\x27s situation?"
        (some "Strategy analysis failed: provider down")) := by
  have hA := planning_fallback_plan_not_executed "provider down" okOracle
    ctxFactsAndPain "hi"
  have hB := planning_fallback_plan_not_executed "provider down" okOracle
    ctxEmpty "hi"
  exact ⟨hA.1, hA.2.1 (by decide), hB.2.2.1 (by decide), hA.2.2.2⟩

/-- C2.  The repository's own fallback plan (RAG task with
`search_id = "search_1"`, then a compose task depending on the generic id
`"rag_agent"`) refutes the claimed indexing: a successful RAG result is
indexed only under its `search_id`, not under its generic agent-kind name,
so the later task's `"rag_agent"` dependency is unmet and the task is
skipped. -/
theorem rag_result_not_indexed_under_generic_name :
    executeAgentSequence okOracle [fallbackRagConfig, fallbackSummarizingConfig] [] =
      [{ success := true, agent_name := "rag_agent" }] ∧
    lookupExec (trackSuccess fallbackRagConfig
        { success := true, agent_name := "rag_agent" } []) "search_1" =
      some { success := true, agent_name := "rag_agent" } ∧
    lookupExec (trackSuccess fallbackRagConfig
        { success := true, agent_name := "rag_agent" } []) "rag_agent" = none ∧
    dependenciesSatisfied ["rag_agent"] (trackSuccess fallbackRagConfig
        { success := true, agent_name := "rag_agent" } []) = false :=
  ⟨rfl, rfl, rfl, rfl⟩

/-- C3.  For the analyzed client factors size=enterprise,
industry=regulated, technical maturity=legacy, urgency=urgent, the
composite factor computed by the mathematical-refinement fallback is
1.4 × 1.2 = 1.68, not the claimed 1.5 × 1.6 × 1.4 × 1.2 = 4.032: the
factor dict's keys `size`/`industry` never match the multiplier table's
keys `client_size`/`industry_complexity`, so those two multipliers are dead
entries.  The third conjunct shows the table's four values do multiply to
4.032, and the last conjunct shows that in general only the urgency and
technical-maturity multipliers ever enter the product. -/
theorem composite_multiplier_omits_size_and_industry :
    analyzeClientFactors ctxRegulatedUrgentLegacy =
      { size := "enterprise", industry := "regulated", complexity := "high"
        urgency := "urgent", technical_maturity := "legacy"
        integration_needs := "moderate" } ∧
    totalComplexityMultiplier
      (clientFactorsPairs (analyzeClientFactors ctxRegulatedUrgentLegacy)) = 42/25 ∧
    ((alookup clientSizeMultipliers "enterprise").getD 1) *
      ((alookup industryComplexityMultipliers "regulated").getD 1) *
      ((alookup technicalMaturityMultipliers "legacy").getD 1) *
      ((alookup urgencyMultipliers "urgent").getD 1) = 4032/1000 ∧
    (42/25 : ℚ) ≠ 4032/1000 ∧
    (∀ f : ClientFactors,
      totalComplexityMultiplier (clientFactorsPairs f) =
        ((alookup urgencyMultipliers f.urgency).getD 1) *
          ((alookup technicalMaturityMultipliers f.technical_maturity).getD 1)) := by
  have hgen : ∀ f : ClientFactors,
      totalComplexityMultiplier (clientFactorsPairs f) =
        ((alookup urgencyMultipliers f.urgency).getD 1) *
          ((alookup technicalMaturityMultipliers f.technical_maturity).getD 1) := by
    intro f
    have h : totalComplexityMultiplier (clientFactorsPairs f) =
        (1 * ((alookup urgencyMultipliers f.urgency).getD 1)) *
          ((alookup technicalMaturityMultipliers f.technical_maturity).getD 1) := rfl
    rw [h, one_mul]
  have h1 : analyzeClientFactors ctxRegulatedUrgentLegacy =
      { size := "enterprise", industry := "regulated", complexity := "high"
        urgency := "urgent", technical_maturity := "legacy"
        integration_needs := "moderate" } := by decide
  have hu : alookup urgencyMultipliers "urgent" = some (6/5) := rfl
  have ht : alookup technicalMaturityMultipliers "legacy" = some (7/5) := rfl
  have hs : alookup clientSizeMultipliers "enterprise" = some (3/2) := rfl
  have hi : alookup industryComplexityMultipliers "regulated" = some (8/5) := rfl
  refine ⟨h1, ?_, ?_, ?_, hgen⟩
  · rw [h1, hgen]
    simp only [hu, ht, Option.getD_some]
    norm_num
  · simp only [hu, ht, hs, hi, Option.getD_some]
    norm_num
  · norm_num

/-- C4.  Gateway fallback is monotonic within a process: one step never
clears the flag (`(generateStep b s).1 = s || b`), with the flag set every
call is served by Groq and the flag stays set under any sequence of calls,
and after any call on which Gemini fails every subsequent call (from any
session — the flag is the process-wide `llm_state`) is served by Groq. -/
theorem gateway_fallback_monotonic :
    (∀ b s : Bool, (generateStep b s).1 = (s || b)) ∧
    (∀ calls : List Bool, llmFlagAfter true calls = true) ∧
    (∀ calls : List Bool,
      llmRoutes true calls = calls.map (fun _ => LLMRoute.groq)) ∧
    (∀ pre post : List Bool, llmFlagAfter false (pre ++ true :: post) = true) ∧
    (∀ pre post : List Bool,
      (llmRoutes false (pre ++ true :: post)).drop pre.length =
        LLMRoute.groq :: post.map (fun _ => LLMRoute.groq)) := by
  refine ⟨generateStep_fst, llmFlagAfter_of_true, llmRoutes_of_true, ?_, ?_⟩
  · intro pre post
    rw [llmFlagAfter_append]
    show llmFlagAfter (generateStep true (llmFlagAfter false pre)).1 post = true
    rw [generateStep_fst, Bool.or_true]
    exact llmFlagAfter_of_true post
  · intro pre post
    rw [llmRoutes_append, ← llmRoutes_length pre false, List.drop_left]
    show (generateStep true (llmFlagAfter false pre)).2 ::
      llmRoutes (generateStep true (llmFlagAfter false pre)).1 post = _
    rw [generateStep_snd_of_true, generateStep_fst, Bool.or_true,
      llmRoutes_of_true]

/-- C5.  The dependency executor produces at most as many results as there
are declared tasks, and a task whose dependencies are unmet against the
current completed-results map is skipped: it contributes no result (so it
is not counted as failed) and execution proceeds with the remaining
tasks unchanged. -/
theorem executor_result_count_and_skip (run : AgentConfig → ExecResult)
    (seqn : List AgentConfig) (m : List (String × ExecResult)) :
    (executeAgentSequence run seqn m).length ≤ seqn.length ∧
    ∀ (cfg : AgentConfig) (rest : List AgentConfig),
      dependenciesSatisfied cfg.depends_on m = false →
      executeAgentSequence run (cfg :: rest) m =
        executeAgentSequence run rest m := by
  refine ⟨executeAgentSequence_length run seqn m, ?_⟩
  intro cfg rest h
  simp [executeAgentSequence, h]

/-- C5 (witness): the theorem applied to a two-task plan and to the skip of
a task with an unmet dependency. -/
theorem executor_result_count_and_skip_witness :
    (executeAgentSequence okOracle
      [fallbackRagConfig, fallbackSummarizingConfig] []).length ≤ 2 ∧
    executeAgentSequence okOracle [fallbackSummarizingConfig] [] =
      executeAgentSequence okOracle [] [] := by
  refine ⟨(executor_result_count_and_skip okOracle
    [fallbackRagConfig, fallbackSummarizingConfig] []).1, ?_⟩
  exact (executor_result_count_and_skip okOracle [] []).2
    fallbackSummarizingConfig [] (by decide)

/-- C6 (counterexample).  In the plan
`[scoping task without baseline_source, RAG task with search_id = "s9"]`
no retrieve task precedes the scoping task, yet validation repairs the
scoping task to point at `"s9"`, the id of the later RAG task — the
repair uses the first RAG task anywhere in the plan, not the first
preceding one. -/
theorem scoping_repair_uses_non_preceding_rag :
    validateStrategyDecision planScopeThenRag =
      Except.ok { planScopeThenRag with agents_sequence := some [{ scopeTaskNoBaseline with baseline_source := some "s9" }, ragTaskS9] } ∧
    (([scopeTaskNoBaseline, ragTaskS9].take 1).any
      (fun c => c.agent == some "rag_agent")) = false :=
  ⟨rfl, rfl⟩

/-- C6 (amended).  Plan validation repairs every scoping task lacking a
`baseline_source`: to `"direct_lookup"` when the decision is
`provide_estimates`, otherwise to the `search_id` (default `"search_1"`)
of the first RAG task anywhere in the plan, and leaves it unchanged when no
RAG task exists; every other task is unchanged. -/
theorem scoping_repair_rule (d : StrategyContent) (dec : String)
    (seqn : List AgentConfig) (hdec : d.decision = some dec)
    (hmem : dec ∈ allowedDecisions) (hseq : d.agents_sequence = some seqn)
    (hagent : ∀ c ∈ seqn, (c.agent).isSome = true) :
    validateStrategyDecision d = Except.ok { d with agents_sequence := some (seqn.map (repairScopingConfig dec (seqn.find? (fun c => c.agent == some "rag_agent")))) } ∧
    (∀ c : AgentConfig, c.agent = some "scoping_agent" →
      c.baseline_source = none → dec = "provide_estimates" →
      repairScopingConfig dec (seqn.find? (fun c2 => c2.agent == some "rag_agent")) c =
        { c with baseline_source := some "direct_lookup" }) ∧
    (∀ (c rc : AgentConfig), c.agent = some "scoping_agent" →
      c.baseline_source = none → dec ≠ "provide_estimates" →
      seqn.find? (fun c2 => c2.agent == some "rag_agent") = some rc →
      repairScopingConfig dec (seqn.find? (fun c2 => c2.agent == some "rag_agent")) c =
        { c with baseline_source := some (rc.search_id.getD "search_1") }) ∧
    (∀ c : AgentConfig, c.agent = some "scoping_agent" →
      c.baseline_source = none → dec ≠ "provide_estimates" →
      seqn.find? (fun c2 => c2.agent == some "rag_agent") = none →
      repairScopingConfig dec (seqn.find? (fun c2 => c2.agent == some "rag_agent")) c = c) ∧
    (∀ c : AgentConfig, c.agent ≠ some "scoping_agent" ∨ c.baseline_source ≠ none →
      repairScopingConfig dec (seqn.find? (fun c2 => c2.agent == some "rag_agent")) c = c) := by
  refine ⟨?_, ?_, ?_, ?_, ?_⟩
  · have hc : allowedDecisions.contains dec = true := by
      simpa [allowedDecisions] using hmem
    have hidx : seqn.findIdx? (fun c => c.agent.isNone) = none := by
      refine findIdx_none_of_all _ _ fun a ha => ?_
      have hs := hagent a ha
      rcases hx : a.agent with _ | v
      · rw [hx] at hs
        exact absurd hs (by simp)
      · simp [hx]
    simp only [validateStrategyDecision, hdec, hseq, hc, Bool.not_true,
      Bool.false_eq_true, if_false, hidx]
  · intro c h1 h2 h3
    simp [repairScopingConfig, h1, h2, h3]
  · intro c rc h1 h2 h3 h4
    simp [repairScopingConfig, h1, h2, h3, h4]
  · intro c h1 h2 h3 h4
    simp [repairScopingConfig, h1, h2, h3, h4]
  · intro c h
    rcases h with h | h
    · have hb : (c.agent == some "scoping_agent") = false := by
        simpa using h
      simp [repairScopingConfig, hb]
    · have hb : c.baseline_source.isNone = false := by
        rcases hx : c.baseline_source with _ | v
        · exact absurd hx h
        · rfl
      simp [repairScopingConfig, hb]

/-- C6 (witness): the amended theorem applied to a `provide_estimates`
plan with one scoping task, which is repaired to the `"direct_lookup"`
sentinel. -/
theorem scoping_repair_rule_witness :
    validateStrategyDecision planScopeOnlyEstimates =
      Except.ok { planScopeOnlyEstimates with agents_sequence := some [{ scopeTaskNoBaseline with baseline_source := some "direct_lookup" }] } ∧
    repairScopingConfig "provide_estimates"
        ([scopeTaskNoBaseline].find? (fun c2 => c2.agent == some "rag_agent"))
        scopeTaskNoBaseline =
      { scopeTaskNoBaseline with baseline_source := some "direct_lookup" } := by
  have h := scoping_repair_rule planScopeOnlyEstimates "provide_estimates"
    [scopeTaskNoBaseline] rfl (by decide) rfl (by decide)
  exact ⟨h.1, h.2.1 scopeTaskNoBaseline rfl rfl rfl⟩

/-- C8.  The completeness assessment is `sufficient` exactly when a
specific-challenge keyword is present, a business-impact keyword is
present, and the combined conversation text exceeds 15 words; `partial`
exactly when a specific-challenge keyword is present and the text exceeds
15 words but no business-impact keyword is present; `insufficient` in all
other cases (equivalently: when no specific-challenge keyword is present
or the text does not exceed 15 words). -/
theorem completeness_rubric_characterization (ctx : ConversationContext) :
    (analyzeContextCompleteness ctx = ContextAssessment.sufficient ↔
      (hasSpecificChallenges (allConversationText ctx) = true ∧
        hasBusinessImpact (allConversationText ctx) = true ∧
        15 < (pyWords (allConversationText ctx)).length)) ∧
    (analyzeContextCompleteness ctx = ContextAssessment.partialContext ↔
      (hasSpecificChallenges (allConversationText ctx) = true ∧
        hasBusinessImpact (allConversationText ctx) = false ∧
        15 < (pyWords (allConversationText ctx)).length)) ∧
    (analyzeContextCompleteness ctx = ContextAssessment.insufficient ↔
      ¬(hasSpecificChallenges (allConversationText ctx) = true ∧
        15 < (pyWords (allConversationText ctx)).length)) := by
  by_cases h3 : 15 < (pyWords (allConversationText ctx)).length <;>
    cases h1 : hasSpecificChallenges (allConversationText ctx) <;>
      cases h2 : hasBusinessImpact (allConversationText ctx) <;>
        simp [analyzeContextCompleteness, hasDetail, h1, h2, h3]

/-- C9.  For a service present in the baseline table, the consolidated
baseline is built from the chosen tier, and the chosen tier is the second
element (the "middle" tier) whenever the service has at least two tiers,
else the sole tier. -/
theorem baseline_middle_tier_selection (name : String) (t0 : Tier)
    (rest : List Tier)
    (hl : getBaselineEstimatesData name = some (t0 :: rest)) :
    scopingGetBaselineEstimates name =
      consolidateBaseline ((chooseBaselineTier (t0 :: rest)).getD t0)
        (t0 :: rest) none ∧
    (∀ (t1 : Tier) (rest2 : List Tier), rest = t1 :: rest2 →
      chooseBaselineTier (t0 :: rest) = some t1) ∧
    (rest = [] → chooseBaselineTier (t0 :: rest) = some t0) := by
  refine ⟨?_, ?_, ?_⟩
  · simp only [scopingGetBaselineEstimates, hl]
  · intro t1 rest2 h
    subst h
    have hlen : 2 ≤ (t0 :: t1 :: rest2).length := by simp
    simp [chooseBaselineTier, hlen]
  · intro h
    subst h
    rfl

/-- C9 (witness): the theorem applied to `Strategy & Design: Cloud`, whose
three ascending tiers yield Tier 2 as baseline. -/
theorem baseline_middle_tier_selection_witness :
    chooseBaselineTier
        ((getBaselineEstimatesData "Strategy & Design: Cloud").getD []) =
      some { tier := "Tier 2: Comprehensive Strategy"
             price_range := "$200,000 - $600,000"
             team_size := "5-12+ people", duration := "3-7 months"
             description := "A comprehensive strategy for mid-market clients, including detailed financial and security planning." } ∧
    (scopingGetBaselineEstimates "Strategy & Design: Cloud").tier =
      some "Tier 2: Comprehensive Strategy" := by
  have h := baseline_middle_tier_selection "Strategy & Design: Cloud" _ _ rfl
  refine ⟨h.2.1 _ _ rfl, ?_⟩
  rw [h.1]
  rfl

/-- C10.  For a context with an empty conversation history,
`generate_analysis_report` returns the failure envelope: `success = false`
with an error description and none of the report sections; the embedded
function is total, so no exception escapes. -/
theorem empty_history_report_failure (ctx : ConversationContext)
    (h : ctx.conversation_history = []) :
    generateAnalysisReport ctx =
      { success := false
        error := some "No conversation history available for analysis" } ∧
    (generateAnalysisReport ctx).session_id = none ∧
    (generateAnalysisReport ctx).conversation_summary = none ∧
    (generateAnalysisReport ctx).client_analysis = none ∧
    (generateAnalysisReport ctx).service_recommendations = none ∧
    (generateAnalysisReport ctx).scoping_analysis = none ∧
    (generateAnalysisReport ctx).next_steps = none := by
  have hmain : generateAnalysisReport ctx =
      { success := false
        error := some "No conversation history available for analysis" } := by
    simp [generateAnalysisReport, h]
  exact ⟨hmain, by rw [hmain], by rw [hmain], by rw [hmain], by rw [hmain],
    by rw [hmain], by rw [hmain]⟩

/-- C10 (witness): the theorem applied to a fresh context. -/
theorem empty_history_report_failure_witness :
    generateAnalysisReport ctxEmpty =
      { success := false
        error := some "No conversation history available for analysis" } :=
  (empty_history_report_failure ctxEmpty rfl).1

/-- C7 (amended).  Extractor round-trip with the two necessary provisos:
when the prose before the fence holds no backtick and the serialization of
the object holds neither a closing-fence token nor a template-leak marker,
`_parse_json_response` applied to prose, a \x60\x60\x60json fence whose
interior is exactly the serialization of `j`, a closing fence and trailing
prose recovers exactly `j`. -/
theorem extractor_fenced_roundtrip (j : JVal) (pre post : List Char)
    (hpre : ∀ c ∈ pre, c ≠ '`')
    (hfj : containsSub (dumpVal j) fence3 = false)
    (hm1 : containsSub (dumpVal j) marker1 = false)
    (hm2 : containsSub (dumpVal j) marker2 = false) :
    parseJsonResponseChars
      (pre ++ fenceJson ++ ('\n' :: (dumpVal j ++ ['\n'])) ++ fence3 ++
        post) = some j := by
  set P := List.dropWhile pyWs pre with hPdef
  set Q := (List.dropWhile pyWs post.reverse).reverse with hQdef
  have hshape : pre ++ fenceJson ++ ('\n' :: (dumpVal j ++ ['\n'])) ++
      fence3 ++ post =
      pre ++ ('`' :: ((['`', '`', 'j', 's', 'o', 'n'] ++
        ('\n' :: (dumpVal j ++ ['\n'])) ++ ['`', '`']) ++ ['`'])) ++
        post := by
    simp [fenceJson, fence3]
  have hT : pyStrip (pre ++ fenceJson ++ ('\n' :: (dumpVal j ++ ['\n'])) ++
      fence3 ++ post) =
      P ++ (fenceJson ++ (('\n' :: (dumpVal j ++ ['\n'])) ++
        (fence3 ++ Q))) := by
    rw [hshape, pyStrip_around _ _ _ _ _ (by decide) (by decide)]
    simp [fenceJson, fence3]
  have hidx : findSub (P ++ (fenceJson ++ (('\n' :: (dumpVal j ++
      ['\n'])) ++ (fence3 ++ Q)))) fenceJson = some P.length :=
    findSub_append_first _ _ _
      (fenceJson_window pre (fenceJson ++ (('\n' :: (dumpVal j ++
        ['\n'])) ++ (fence3 ++ Q))) hpre)
      (isPrefOf_refl_append _ _)
  have hcontains : containsSub (P ++ (fenceJson ++ (('\n' :: (dumpVal j ++
      ['\n'])) ++ (fence3 ++ Q)))) fenceJson = true := by
    unfold containsSub
    rw [hidx]
    rfl
  have hdrop : (P ++ (fenceJson ++ (('\n' :: (dumpVal j ++ ['\n'])) ++
      (fence3 ++ Q)))).drop (P.length + 7) =
      ('\n' :: (dumpVal j ++ ['\n'])) ++ (fence3 ++ Q) := by
    rw [show P.length + 7 = (P ++ fenceJson).length from by simp [fenceJson],
      ← List.append_assoc, List.drop_left]
  have he : findSub (('\n' :: (dumpVal j ++ ['\n'])) ++ (fence3 ++ Q))
      fence3 = some ((dumpVal j).length + 2) := by
    have h := findSub_append_first ('\n' :: (dumpVal j ++ ['\n']))
      (fence3 ++ Q) fence3 (fence3_window j Q hfj)
      (isPrefOf_refl_append _ _)
    have hlen : ('\n' :: (dumpVal j ++ ['\n'])).length =
        (dumpVal j).length + 2 := by
      simp only [List.length_cons, List.length_append, List.length_nil,
        List.length_singleton]
    rw [hlen] at h
    exact h
  have hslice : sliceList (P ++ (fenceJson ++ (('\n' :: (dumpVal j ++
      ['\n'])) ++ (fence3 ++ Q)))) (P.length + 7)
      (P.length + 7 + ((dumpVal j).length + 2)) =
      '\n' :: (dumpVal j ++ ['\n']) := by
    have h := sliceList_middle (P ++ fenceJson)
      ('\n' :: (dumpVal j ++ ['\n'])) (fence3 ++ Q)
    rw [show (P ++ fenceJson).length = P.length + 7 from by simp [fenceJson],
      show ('\n' :: (dumpVal j ++ ['\n'])).length =
        (dumpVal j).length + 2 from by
          simp only [List.length_cons, List.length_append, List.length_nil,
            List.length_singleton],
      List.append_assoc] at h
    exact h
  have hload : jsonLoads (dumpVal j) = some j := by
    have hp := (parse_dump ((dumpVal j).length + 1)).1 j []
      (Nat.le_trans (sval_le_dump j) (Nat.le_succ _)) rfl
    rw [List.append_nil] at hp
    unfold jsonLoads
    rw [hp]
    rfl
  simp only [parseJsonResponseChars]
  rw [hT]
  simp only [hcontains, if_true, hidx, hdrop, he, hslice, pyStrip_nl_wrap,
    hm1, hm2, Bool.or_self, Bool.false_eq_true, if_false]
  exact hload

/-- Witness for `extractor_fenced_roundtrip`: a concrete prose-wrapped
fenced serialization of the object with key `k`, the array `[7, "v w"]` as
its value, surrounding prose, recovered exactly. -/
theorem extractor_fenced_roundtrip_witness :
    parseJsonResponseChars ("Here is the plan:\n".toList ++ fenceJson ++
      ('\n' :: (dumpVal (JVal.jobj (JObj.ocons "k".toList
        (JVal.jarr (JArr.acons (JVal.jnum 7)
          (JArr.acons (JVal.jstr "v w".toList) JArr.anil))) JObj.onil)) ++
        ['\n'])) ++ fence3 ++ "\nThanks!".toList) =
      some (JVal.jobj (JObj.ocons "k".toList
        (JVal.jarr (JArr.acons (JVal.jnum 7)
          (JArr.acons (JVal.jstr "v w".toList) JArr.anil))) JObj.onil)) :=
  extractor_fenced_roundtrip _ _ _ (by decide) (by decide) (by decide)
    (by decide)

/-- C7 (counterexample).  A serialization of an object whose string value
holds the template-leak marker is NOT recovered: `json.loads` on the bare
interior returns the outer two-level object, but the extractor, seeing the
marker inside the fenced interior, rescans from the last `\x7b` and
returns only the inner one-level object, refuting the unconditional
round-trip claim. -/
theorem extractor_template_marker_counterexample :
    jsonLoads ("\x7b\"a\": \x7b\"m\": \"Always respond with valid JSON\"\x7d\x7d").toList =
      some (JVal.jobj (JObj.ocons "a".toList
        (JVal.jobj (JObj.ocons "m".toList
          (JVal.jstr "Always respond with valid JSON".toList) JObj.onil))
        JObj.onil)) ∧
    parseJsonResponse "Result:\n```json\n\x7b\"a\": \x7b\"m\": \"Always respond with valid JSON\"\x7d\x7d\n```\nDone." =
      some (JVal.jobj (JObj.ocons "m".toList
        (JVal.jstr "Always respond with valid JSON".toList) JObj.onil)) := by
  constructor
  · decide
  · decide

end SGDT
